import Mathlib

/-!
# Operation-batch compilation in `aerospike_record_operations.c`

A shallow embedding of `aerospike_record_operations_ops`,
`aerospike_record_operations_general`, `aerospike_record_operations_operate` and
`aerospike_record_operations_remove_bin` from
`src/aerospike/aerospike_record_operations.c`, followed by theorems about them.

Conventions of the embedding.

* C pointers that may be `NULL` are `Option`s.
* `u_int64_t` values are natural numbers; `int`, `int64_t` and PHP longs are
  integers; every C conversion between them is an explicit function
  (`uint32_of_long`, `int_of_uint32`, `u_int64_of_int`, `int64_of_u_int64`,
  `uint32_of_u_int64`).
* The Aerospike C client and the helpers of the extension that live outside this
  source file (`set_policy`, `get_generation_value`, the `AS_DEFAULT_GET`
  callback) are the fields of `Extern`.  The store calls receive the list of
  store calls made so far, so they may answer differently from call to call.
* Every store call is recorded, in order, in a list of `NetCall`s.
* The operation list of the C client is modelled with its capacity: an
  `as_operations_add_*` call stores its operation and returns `true` when the list
  has room and the bin name is not `NULL` and fits an `as_bin_name`; otherwise it
  returns `false` and leaves the list alone.  The operator codes and the size of an
  `as_bin_name` come from headers of the C client and are fields of `Extern`.
* `error_p` is followed only as far as this source file reads or writes it.
* C strings are `String`s; `strlen` is the UTF-8 byte size.  The keys of a PHP array are
  binary-safe: `strcmp` reads a key up to its first NUL (`c_str`).  Bin names and values
  are the `char*` handed to the C client.
-/

set_option autoImplicit false

namespace AerospikeOps

/-! ## Data model -/

/-- Status codes of the C client (`as_status`) that this file names, and the rest. -/
inductive as_status
  | AEROSPIKE_OK
  | AEROSPIKE_ERR
  | AEROSPIKE_ERR_PARAM
  | AEROSPIKE_ERR_RECORD_NOT_FOUND
  | AEROSPIKE_ERR_CODE (code : Nat)
  deriving DecidableEq, Repr

open as_status

/-- The key of one element of a PHP `HashTable`, as `zend_hash_get_current_key_ex` reports it. -/
inductive HashKey
  | HASH_KEY_IS_STRING (key : String)
  | HASH_KEY_IS_LONG (index : Nat)
  deriving DecidableEq, Repr

/-- The type tag of a PHP value, as `Z_TYPE_PP` reports it. -/
inductive ztype
  | IS_NULL
  | IS_LONG
  | IS_BOOL
  | IS_STRING
  | IS_ARRAY
  | IS_OTHER (tag : Nat)
  deriving DecidableEq, Repr

/-- A PHP value (`zval`): the kinds the source tests for, and the others. -/
inductive zval
  | null
  | long (lval : Int)
  | bool (b : Bool)
  | string (s : String)
  | array (ht : List (HashKey × zval))
  | other (tag : Nat)

/-- A PHP `HashTable`: its elements in iteration order. -/
abbrev HashTable := List (HashKey × zval)

/-- The macro `Z_TYPE_PP`. -/
def Z_TYPE : zval → ztype
  | .null => .IS_NULL
  | .long _ => .IS_LONG
  | .bool _ => .IS_BOOL
  | .string _ => .IS_STRING
  | .array _ => .IS_ARRAY
  | .other tag => .IS_OTHER tag

/-- The macro `Z_LVAL_PP`, read by the source only when the type is `IS_LONG`. -/
def Z_LVAL : zval → Int
  | .long lval => lval
  | _ => 0

/-- The macro `Z_STRVAL_PP`, read by the source only when the type is `IS_STRING`. -/
def Z_STRVAL : zval → Option String
  | .string s => some s
  | _ => none

/-- The macro `Z_ARRVAL_PP`, read by the source only when the type is `IS_ARRAY`. -/
def Z_ARRVAL : zval → HashTable
  | .array ht => ht
  | _ => []

/-- The client handle (`aerospike`), opaque here. -/
structure aerospike where
  handle : Nat
  deriving DecidableEq, Repr

/-- The key of a record, produced by a collaborator and opaque here. -/
structure as_key where
  ns : String
  set : String
  value : String
  deriving DecidableEq, Repr

/-- The type tag of a value of the C client (`as_val_t`). -/
inductive as_val_t
  | AS_NIL
  | AS_INTEGER
  | AS_STRING
  | AS_BYTES
  deriving DecidableEq, Repr

/-- A value of the C client (`as_val`). -/
inductive as_val
  | nil
  | integer (value : Int)
  | string (value : String)
  | bytes (value : List Nat)
  deriving DecidableEq, Repr

/-- The field `type` of an `as_val`. -/
def as_val.type : as_val → as_val_t
  | .nil => .AS_NIL
  | .integer _ => .AS_INTEGER
  | .string _ => .AS_STRING
  | .bytes _ => .AS_BYTES

/-- One bin of a record. -/
structure as_bin where
  name : String
  value : as_val
  deriving DecidableEq, Repr

/-- A record of the C client: its bins in order, generation and ttl. -/
structure as_record where
  bins : List as_bin
  gen : Nat
  ttl : Nat
  deriving DecidableEq, Repr

/-- C client `as_record_get`: the value of the first bin called `name`; `NULL` when there is
none.  A `NULL` record or a `NULL` name finds nothing. -/
def as_record_get (rec : Option as_record) (name : Option String) : Option as_val :=
  match rec, name with
  | some r, some n => (r.bins.find? (fun b => b.name == n)).map (fun b => b.value)
  | _, _ => none

/-- One operation of an operation list, named after the `as_operations_add_*` call that
builds it.  The string of an append, prepend or string write is the `char*` handed over,
which is `NULL` when the entry gave none. -/
inductive as_binop
  | append_str (name : String) (value : Option String)
  | prepend_str (name : String) (value : Option String)
  | incr (name : String) (value : Int)
  | touch
  | read (name : String)
  | write_str (name : String) (value : Option String)
  | write_int64 (name : String) (value : Int)
  deriving DecidableEq, Repr

/-- The operation list of the C client (`as_operations`): generation, ttl (a `uint32_t`
field), the capacity reserved by `as_operations_inita` and the operations added so far. -/
structure as_operations where
  gen : Nat
  ttl : Nat
  capacity : Nat
  binops : List as_binop
  deriving DecidableEq, Repr

/-- An operate policy: filled in by `set_policy`, never inspected by this source. -/
structure as_policy_operate where
  fields : List Nat
  deriving DecidableEq, Repr

/-- A write policy: filled in by `set_policy`, never inspected by this source. -/
structure as_policy_write where
  fields : List Nat
  deriving DecidableEq, Repr

/-- A call to the store, with the key pointer, policy and payload it was given. -/
inductive NetCall
  | select (key : Option as_key) (bins : List String)
  | operate (key : Option as_key) (policy : as_policy_operate) (ops : as_operations)
  | put (key : Option as_key) (policy : Option as_policy_write) (rec : as_record)
  deriving DecidableEq, Repr

/-- What `PHP_EXT_SET_AS_ERR` stores in `error_p`. -/
structure as_error where
  code : as_status
  message : String
  deriving DecidableEq, Repr

/-- The C client and the collaborators of the extension that this source file calls but
does not define. -/
structure Extern where
  /-- The value of the enumerator `AS_OPERATOR_WRITE` of the C client. -/
  AS_OPERATOR_WRITE : Nat
  /-- The value of the enumerator `AS_OPERATOR_READ`. -/
  AS_OPERATOR_READ : Nat
  /-- The value of the enumerator `AS_OPERATOR_INCR`. -/
  AS_OPERATOR_INCR : Nat
  /-- The value of the enumerator `AS_OPERATOR_PREPEND`. -/
  AS_OPERATOR_PREPEND : Nat
  /-- The value of the enumerator `AS_OPERATOR_APPEND`. -/
  AS_OPERATOR_APPEND : Nat
  /-- The value of the enumerator `AS_OPERATOR_TOUCH`. -/
  AS_OPERATOR_TOUCH : Nat
  /-- The size of an `as_bin_name` buffer: a bin name must be strictly shorter. -/
  AS_BIN_NAME_MAX_SIZE : Nat
  /-- C client `as_policy_operate_init`: the default operate policy. -/
  as_policy_operate_init : as_policy_operate
  /-- The collaborator `set_policy` asked for an operate policy: the value of
  `error_p->code` when it returns, and the policy it filled in. -/
  set_policy : Option zval → as_status × as_policy_operate
  /-- The collaborator `get_generation_value`: the generation field after the call, from the
  options and the field before the call. -/
  get_generation_value : Option zval → Nat → Nat
  /-- The store call `aerospike_key_select`, given the calls made so far, the key and the
  selected bins: the status and the record it hands back. -/
  aerospike_key_select :
    List NetCall → Option as_key → List String → as_status × Option as_record
  /-- The store call `aerospike_key_operate`, given the calls made so far, the key, the
  policy and the operation list: the status and the record it hands back. -/
  aerospike_key_operate :
    List NetCall → Option as_key → as_policy_operate → as_operations →
      as_status × Option as_record
  /-- The callback `AS_DEFAULT_GET` on one bin: the PHP value it adds to the result under
  the name of the bin, or `none` when it returns `false`. -/
  AS_DEFAULT_GET : String → as_val → Option zval

/-- The six case labels of the switch in `aerospike_record_operations_ops`, in source order. -/
def Extern.operators (E : Extern) : List Nat :=
  [E.AS_OPERATOR_APPEND, E.AS_OPERATOR_PREPEND, E.AS_OPERATOR_INCR,
   E.AS_OPERATOR_TOUCH, E.AS_OPERATOR_READ, E.AS_OPERATOR_WRITE]

/-! ## C conversions -/

/-- The cast `(uint32_t)` applied to a PHP long. -/
def uint32_of_long (lval : Int) : Nat := (lval % 2 ^ 32).toNat

/-- Storing a `uint32_t` in an `int` (two's complement wrap). -/
def int_of_uint32 (n : Nat) : Int := if n < 2 ^ 31 then (n : Int) else (n : Int) - 2 ^ 32

/-- Passing an `int` where a `u_int64_t` is expected. -/
def u_int64_of_int (i : Int) : Nat := (i % 2 ^ 64).toNat

/-- Passing a `u_int64_t` where an `int64_t` is expected (two's complement wrap). -/
def int64_of_u_int64 (n : Nat) : Int :=
  if n % 2 ^ 64 < 2 ^ 63 then ((n % 2 ^ 64 : Nat) : Int) else ((n % 2 ^ 64 : Nat) : Int) - 2 ^ 64

/-- Storing a `u_int64_t` in the `uint32_t` field `ttl` of an `as_operations`. -/
def uint32_of_u_int64 (n : Nat) : Nat := n % 2 ^ 32

/-! ## The operation list of the C client -/

/-- C client `as_operations_inita`: an empty list with room for `n` operations. -/
def as_operations_inita (n : Nat) : as_operations :=
  { gen := 0, ttl := 0, capacity := n, binops := [] }

/-- C client `as_binop_forappend`: the name under which the next operation is stored, when
the list has room left and the bin name is not `NULL` and fits an `as_bin_name`. -/
def as_binop_forappend (E : Extern) (ops : as_operations) (name : Option String) :
    Option String :=
  match name with
  | some n =>
    if ops.binops.length < ops.capacity ∧ n.utf8ByteSize < E.AS_BIN_NAME_MAX_SIZE then some n
    else none
  | none => none

/-- The shape shared by the `as_operations_add_*` calls: store the operation and return
`true`, or leave the list alone and return `false`. -/
def as_operations_add (E : Extern) (ops : as_operations) (name : Option String)
    (mk : String → as_binop) : Bool × as_operations :=
  match as_binop_forappend E ops name with
  | some n => (true, { ops with binops := ops.binops ++ [mk n] })
  | none => (false, ops)

/-- C client `as_operations_add_append_str`. -/
def as_operations_add_append_str (E : Extern) (ops : as_operations) (name : Option String)
    (value : Option String) : Bool × as_operations :=
  as_operations_add E ops name (fun n => .append_str n value)

/-- C client `as_operations_add_prepend_str`. -/
def as_operations_add_prepend_str (E : Extern) (ops : as_operations) (name : Option String)
    (value : Option String) : Bool × as_operations :=
  as_operations_add E ops name (fun n => .prepend_str n value)

/-- C client `as_operations_add_incr`. -/
def as_operations_add_incr (E : Extern) (ops : as_operations) (name : Option String)
    (value : Int) : Bool × as_operations :=
  as_operations_add E ops name (fun n => .incr n value)

/-- C client `as_operations_add_touch`: a touch is stored under the empty bin name. -/
def as_operations_add_touch (E : Extern) (ops : as_operations) : Bool × as_operations :=
  as_operations_add E ops (some "") (fun _ => .touch)

/-- C client `as_operations_add_read`. -/
def as_operations_add_read (E : Extern) (ops : as_operations) (name : Option String) :
    Bool × as_operations :=
  as_operations_add E ops name (fun n => .read n)

/-- C client `as_operations_add_write_str`. -/
def as_operations_add_write_str (E : Extern) (ops : as_operations) (name : Option String)
    (value : Option String) : Bool × as_operations :=
  as_operations_add E ops name (fun n => .write_str n value)

/-- C client `as_operations_add_write_int64`. -/
def as_operations_add_write_int64 (E : Extern) (ops : as_operations) (name : Option String)
    (value : Int) : Bool × as_operations :=
  as_operations_add E ops name (fun n => .write_int64 n value)

/-! ## `aerospike_record_operations_ops` -/

/-- The bins named by the `NULL`-terminated array `select[] = {bin_name_p, NULL}`. -/
def select_bins (bin_name_p : Option String) : List String :=
  match bin_name_p with
  | some b => [b]
  | none => []

/-- What `aerospike_record_operations_ops` leaves behind: the status it returns, the
operation list and the store calls made so far. -/
structure OpsResult where
  status : as_status
  ops : as_operations
  calls : List NetCall
  deriving DecidableEq, Repr

/-- Source `aerospike_record_operations_ops` (lines 29-100): add to `ops` the operation
selected by `operation`.  `calls` are the store calls made before. -/
def aerospike_record_operations_ops (E : Extern) (calls : List NetCall)
    (as_key_p : Option as_key)
    (bin_name_p : Option String) (str : Option String)
    (offset initial_value time_to_live operation : Nat) (ops : as_operations) : OpsResult :=
  if operation = E.AS_OPERATOR_APPEND then
    { status := AEROSPIKE_OK, ops := (as_operations_add_append_str E ops bin_name_p str).2,
      calls := calls }
  else if operation = E.AS_OPERATOR_PREPEND then
    { status := AEROSPIKE_OK, ops := (as_operations_add_prepend_str E ops bin_name_p str).2,
      calls := calls }
  else if operation = E.AS_OPERATOR_INCR then
    let r := E.aerospike_key_select calls as_key_p (select_bins bin_name_p)
    let calls1 := calls ++ [NetCall.select as_key_p (select_bins bin_name_p)]
    if r.1 ≠ AEROSPIKE_OK then
      { status := r.1, ops := ops, calls := calls1 }
    else
      match as_record_get r.2 bin_name_p with
      | some value_p =>
        if value_p.type = as_val_t.AS_NIL then
          let w := as_operations_add_write_int64 E ops bin_name_p (int64_of_u_int64 initial_value)
          if w.1 = false then
            { status := AEROSPIKE_ERR, ops := w.2, calls := calls1 }
          else
            { status := AEROSPIKE_OK, ops := w.2, calls := calls1 }
        else
          { status := AEROSPIKE_OK,
            ops := (as_operations_add_incr E ops bin_name_p (int64_of_u_int64 offset)).2,
            calls := calls1 }
      | none => { status := AEROSPIKE_ERR, ops := ops, calls := calls1 }
  else if operation = E.AS_OPERATOR_TOUCH then
    { status := AEROSPIKE_OK,
      ops := (as_operations_add_touch E { ops with ttl := uint32_of_u_int64 time_to_live }).2,
      calls := calls }
  else if operation = E.AS_OPERATOR_READ then
    { status := AEROSPIKE_OK, ops := (as_operations_add_read E ops bin_name_p).2,
      calls := calls }
  else if operation = E.AS_OPERATOR_WRITE then
    match str with
    | some s =>
      { status := AEROSPIKE_OK,
        ops := (as_operations_add_write_str E ops bin_name_p (some s)).2, calls := calls }
    | none =>
      { status := AEROSPIKE_OK,
        ops := (as_operations_add_write_int64 E ops bin_name_p (int64_of_u_int64 offset)).2,
        calls := calls }
  else
    { status := AEROSPIKE_ERR, ops := ops, calls := calls }

/-! ## `aerospike_record_initialization` and `aerospike_record_operations_general` -/

/-- Source `aerospike_record_initialization` (lines 203-228): reject `NULL` arguments, then
let `set_policy` fill the operate policy and report `error_p->code`. -/
def aerospike_record_initialization (E : Extern) (as_object_p : Option aerospike)
    (as_key_p : Option as_key) (options_p : Option zval) (error_p : Option as_error) :
    as_status × as_policy_operate :=
  if as_object_p.isNone ∨ error_p.isNone ∨ as_key_p.isNone then
    (AEROSPIKE_ERR, E.as_policy_operate_init)
  else
    E.set_policy options_p

/-- What an entry point leaves behind: the status it returns, the store calls it made, the
caller's result mapping and the content of `error_p` as far as this source file writes it. -/
structure CallResult where
  status : as_status
  calls : List NetCall
  returned : List (String × zval)
  error : Option as_error

/-- Source `aerospike_record_operations_general` (lines 230-283): one operation, compiled
into a list of capacity one and submitted. -/
def aerospike_record_operations_general (E : Extern) (as_object_p : Option aerospike)
    (as_key_p : Option as_key) (options_p : Option zval) (error_p : Option as_error)
    (bin_name_p : Option String) (str : Option String)
    (offset initial_value time_to_live operation : Nat) : CallResult :=
  let ops0 := as_operations_inita 1
  let ops := { ops0 with gen := E.get_generation_value options_p ops0.gen }
  let init := aerospike_record_initialization E as_object_p as_key_p options_p error_p
  if init.1 ≠ AEROSPIKE_OK then
    { status := init.1, calls := [], returned := [], error := error_p }
  else
    let r := aerospike_record_operations_ops E [] as_key_p bin_name_p str offset initial_value
      time_to_live operation ops
    if r.status ≠ AEROSPIKE_OK then
      { status := r.status, calls := r.calls, returned := [], error := error_p }
    else
      { status := (E.aerospike_key_operate r.calls as_key_p init.2 r.ops).1,
        calls := r.calls ++ [NetCall.operate as_key_p init.2 r.ops],
        returned := [], error := error_p }

/-! ## `aerospike_record_operations_operate` -/

/-- The locals `str`, `offset`, `op` and `bin_name_p` that the scan of one entry fills. -/
structure EntryVars where
  str : Option String
  offset : Int
  op : Int
  bin_name_p : Option String
  deriving DecidableEq, Repr

/-- The values the locals are reset to before an entry is scanned (lines 327-330). -/
def EntryVars.reset : EntryVars :=
  { str := none, offset := 0, op := 0, bin_name_p := none }

/-- How the scan of the keys of one entry ends. -/
inductive KeyScan
  /-- The inner loop ran to its end. -/
  | scanned (v : EntryVars)
  /-- A key is not a string (lines 335-341): `error_p` is set and control goes to `exit`
  without an assignment to `status`. -/
  | invalid_key
  /-- An unrecognized key or value (lines 352-358): `status = AEROSPIKE_ERR; goto exit`. -/
  | rejected
  deriving DecidableEq, Repr

/-- The C string that a `char*` to the bytes of `s` denotes: the characters before the
first NUL.  PHP strings, array keys among them, are binary-safe and may hold NUL
characters; the C string functions stop at the first one. -/
def c_str (s : String) : String :=
  String.mk (s.data.takeWhile (fun c => c.toNat ≠ 0))

/-- The test `!strcmp(a, b)`: the two C strings are equal. -/
def strcmp_eq (a b : String) : Bool :=
  decide (c_str a = c_str b)

/-- The body of the inner loop for a string key (lines 343-359). -/
def scan_key (v : EntryVars) (options_key : String) (each_operation : zval) : KeyScan :=
  if strcmp_eq options_key "op" = true ∧ Z_TYPE each_operation = ztype.IS_LONG then
    .scanned { v with op := int_of_uint32 (uint32_of_long (Z_LVAL each_operation)) }
  else if strcmp_eq options_key "bin" = true ∧ Z_TYPE each_operation = ztype.IS_STRING then
    .scanned { v with bin_name_p := Z_STRVAL each_operation }
  else if strcmp_eq options_key "val" = true then
    if Z_TYPE each_operation = ztype.IS_STRING then
      .scanned { v with str := Z_STRVAL each_operation }
    else if Z_TYPE each_operation = ztype.IS_LONG then
      .scanned { v with offset := int_of_uint32 (uint32_of_long (Z_LVAL each_operation)) }
    else .rejected
  else .rejected

/-- The inner loop (lines 331-361) over the elements of one entry. -/
def scan_entry : HashTable → EntryVars → KeyScan
  | [], v => .scanned v
  | (HashKey.HASH_KEY_IS_LONG _, _) :: _, _ => .invalid_key
  | (HashKey.HASH_KEY_IS_STRING options_key, each_operation) :: rest, v =>
    match scan_key v options_key each_operation with
    | .scanned v1 => scan_entry rest v1
    | stop => stop

/-- The locals of `aerospike_record_operations_operate` that the outer loop changes. -/
structure Frame where
  status : as_status
  ops : as_operations
  calls : List NetCall
  error : Option as_error
  deriving DecidableEq, Repr

/-- One iteration of the outer loop (lines 325-371): `ok` continues with the next entry,
`error` is `goto exit`. -/
def operate_entry (E : Extern) (as_key_p : Option as_key) (f : Frame) (operation : zval) :
    Except Frame Frame :=
  if Z_TYPE operation = ztype.IS_ARRAY then
    match scan_entry (Z_ARRVAL operation) EntryVars.reset with
    | .invalid_key =>
      .error { f with error := some { code := AEROSPIKE_ERR,
                                      message := "Unable to set policy: Invalid Policy Constant Key" } }
    | .rejected => .error { f with status := AEROSPIKE_ERR }
    | .scanned v =>
      let r := aerospike_record_operations_ops E f.calls as_key_p v.bin_name_p v.str
        (u_int64_of_int v.offset) 0 0 (u_int64_of_int v.op) f.ops
      if r.status ≠ AEROSPIKE_OK then
        .error { f with status := r.status, ops := r.ops, calls := r.calls }
      else
        .ok { f with status := r.status, ops := r.ops, calls := r.calls }
  else .error { f with status := AEROSPIKE_ERR }

/-- The outer loop (lines 323-372) over the submitted entries. -/
def operate_loop (E : Extern) (as_key_p : Option as_key) : List zval → Frame → Except Frame Frame
  | [], f => .ok f
  | operation :: rest, f =>
    match operate_entry E as_key_p f operation with
    | .ok f1 => operate_loop E as_key_p rest f1
    | .error f1 => .error f1

/-- C client `as_record_foreach` with the callback `AS_DEFAULT_GET`: visit the bins in
order, adding each converted value to the result, and stop with `false` at the first bin
the callback refuses. -/
def as_record_foreach (E : Extern) : List as_bin → List (String × zval) →
    Bool × List (String × zval)
  | [], returned => (true, returned)
  | b :: rest, returned =>
    match E.AS_DEFAULT_GET b.name b.value with
    | some z => as_record_foreach E rest (returned ++ [(b.name, z)])
    | none => (false, returned)

/-- The tail of `aerospike_record_operations_operate` (lines 374-398), entered when the
outer loop ran to its end with the locals `f`: submit the operation list and, when the
store hands back a record, convert its bins into the caller's result mapping. -/
def operate_submit (E : Extern) (as_key_p : Option as_key) (operate_policy : as_policy_operate)
    (returned_p : List (String × zval)) (f : Frame) : CallResult :=
  let r := E.aerospike_key_operate f.calls as_key_p operate_policy f.ops
  let calls := f.calls ++ [NetCall.operate as_key_p operate_policy f.ops]
  if r.1 ≠ AEROSPIKE_OK then
    { status := r.1, calls := calls, returned := returned_p, error := f.error }
  else
    match r.2 with
    | some get_rec =>
      let fe := as_record_foreach E get_rec.bins returned_p
      if fe.1 = false then
        { status := r.1, calls := calls, returned := fe.2,
          error := some { code := AEROSPIKE_ERR, message := "Unable to get bins of a record" } }
      else
        { status := r.1, calls := calls, returned := fe.2, error := f.error }
    | none => { status := r.1, calls := calls, returned := returned_p, error := f.error }

/-- The locals of `aerospike_record_operations_operate` when the outer loop is entered
(lines 311-321), `status` being the `AEROSPIKE_OK` that the initialization returned: an
empty operation list with room for `n` operations and the caller's generation. -/
def operate_start (E : Extern) (options_p : Option zval) (error_p : Option as_error)
    (status : as_status) (n : Nat) : Frame :=
  { status := status,
    ops := { as_operations_inita n with
             gen := E.get_generation_value options_p (as_operations_inita n).gen },
    calls := [], error := error_p }

/-- Source `aerospike_record_operations_operate` (lines 285-399).  `operations_array_p` holds
the values of the submitted array in iteration order and `returned_p` the content of the
caller's result mapping. -/
def aerospike_record_operations_operate (E : Extern) (as_object_p : Option aerospike)
    (as_key_p : Option as_key) (options_p : Option zval) (error_p : Option as_error)
    (returned_p : List (String × zval)) (operations_array_p : List zval) : CallResult :=
  let init := aerospike_record_initialization E as_object_p as_key_p options_p error_p
  if init.1 ≠ AEROSPIKE_OK then
    { status := init.1, calls := [], returned := returned_p, error := error_p }
  else
    match operate_loop E as_key_p operations_array_p
        (operate_start E options_p error_p init.1 operations_array_p.length) with
    | .error f =>
      { status := f.status, calls := f.calls, returned := returned_p, error := f.error }
    | .ok f => operate_submit E as_key_p init.2 returned_p f

/-! ## Vocabulary of the statements -/

/-- The call is an `aerospike_key_select`. -/
def NetCall.is_select : NetCall → Bool
  | .select _ _ => true
  | _ => false

/-- The call is an `aerospike_key_operate`. -/
def NetCall.is_operate : NetCall → Bool
  | .operate _ _ _ => true
  | _ => false

/-- The key is a string key. -/
def HashKey.is_string : HashKey → Bool
  | .HASH_KEY_IS_STRING _ => true
  | .HASH_KEY_IS_LONG _ => false

/-- Every key of the entry is a string. -/
def string_keys (e : zval) : Prop := ∀ p ∈ Z_ARRVAL e, p.1.is_string = true

instance (e : zval) : Decidable (string_keys e) :=
  inferInstanceAs (Decidable (∀ p ∈ Z_ARRVAL e, p.1.is_string = true))

/-- The code reads the key as `name`: it is a string key whose C string is `name`. -/
def HashKey.reads_as (k : HashKey) (name : String) : Bool :=
  match k with
  | .HASH_KEY_IS_STRING key => strcmp_eq key name
  | .HASH_KEY_IS_LONG _ => false

/-- The entry has no key `op`: none of its keys is read as `op`. -/
def lacks_op (e : zval) : Prop := ∀ p ∈ Z_ARRVAL e, p.1.reads_as "op" = false

instance (e : zval) : Decidable (lacks_op e) :=
  inferInstanceAs (Decidable (∀ p ∈ Z_ARRVAL e, p.1.reads_as "op" = false))

/-- The integer an integer `val` becomes on its way into an operation: cast to `uint32_t`,
stored in the `int` `offset`, passed as a `u_int64_t` and handed to the C client as an
`int64_t`. -/
def carried_int64 (v : Int) : Int :=
  int64_of_u_int64 (u_int64_of_int (int_of_uint32 (uint32_of_long v)))

/-- The locals with which the outer loop stops, whether it ran to its end or left through
`exit`. -/
def last_frame : Except Frame Frame → Frame
  | .ok f => f
  | .error f => f

/-! ## The translation of an entry, read off its keys -/

/-- A store in which every read succeeds and finds each selected bin holding `value`, and
every submitted batch is accepted without a record in return; the operator codes are the
given ones. -/
def sampleExtern (write read incr prepend append touch : Nat) (value : as_val) : Extern :=
  { AS_OPERATOR_WRITE := write, AS_OPERATOR_READ := read, AS_OPERATOR_INCR := incr,
    AS_OPERATOR_PREPEND := prepend, AS_OPERATOR_APPEND := append, AS_OPERATOR_TOUCH := touch,
    AS_BIN_NAME_MAX_SIZE := 15,
    as_policy_operate_init := { fields := [] },
    set_policy := fun _ => (AEROSPIKE_OK, { fields := [] }),
    get_generation_value := fun _ g => g,
    aerospike_key_select := fun _ _ bins =>
      (AEROSPIKE_OK,
       some { bins := bins.map (fun b => { name := b, value := value }), gen := 1, ttl := 0 }),
    aerospike_key_operate := fun _ _ _ _ => (AEROSPIKE_OK, none),
    AS_DEFAULT_GET := fun _ _ => none }

/-- The sample store with the bin holding the integer 10 and the operator codes
1, 2, 5, 9, 10, 11 for read, write, increment, append, prepend, touch. -/
def storeInt : Extern := sampleExtern 2 1 5 10 9 11 (as_val.integer 10)

/-- The sample store with the bin holding an explicit nil. -/
def storeNil : Extern := sampleExtern 2 1 5 10 9 11 as_val.nil

/-- The sample store with operator codes in which write is 0. -/
def storeZeroWrite : Extern := sampleExtern 0 1 2 4 5 8 (as_val.integer 10)

/-- The sample store in which the key does not exist: every read reports
`AEROSPIKE_ERR_RECORD_NOT_FOUND`. -/
def storeNotFound : Extern :=
  { storeInt with aerospike_key_select := fun _ _ _ => (AEROSPIKE_ERR_RECORD_NOT_FOUND, none) }

/-- The sample store in which the key exists but the record read has no bin. -/
def storeNoBin : Extern :=
  { storeInt with
    aerospike_key_select := fun _ _ _ => (AEROSPIKE_OK, some { bins := [], gen := 1, ttl := 0 }) }

/-- A sample client handle. -/
def sampleObject : Option aerospike := some { handle := 0 }

/-- A sample key. -/
def sampleKey : Option as_key := some { ns := "test", set := "demo", value := "k" }

/-- A sample, clean `error_p`. -/
def sampleError : Option as_error := some { code := AEROSPIKE_OK, message := "" }

/-- The entry `array("op" => op, "bin" => bin, "val" => val)`. -/
def entry (op : Int) (bin : String) (val : zval) : zval :=
  .array [(.HASH_KEY_IS_STRING "op", .long op), (.HASH_KEY_IS_STRING "bin", .string bin),
          (.HASH_KEY_IS_STRING "val", val)]

/-- The entry `array("op" => op, "bin" => bin)`. -/
def entry_no_val (op : Int) (bin : String) : zval :=
  .array [(.HASH_KEY_IS_STRING "op", .long op), (.HASH_KEY_IS_STRING "bin", .string bin)]

/-- The collaborators that only `aerospike_record_operations_remove_bin` calls, on top of
those in `Extern`. -/
structure ExternWrite extends Extern where
  /-- The collaborator `set_policy` asked for a write policy: the value of `error_p->code`
  when it returns.  The policy it fills in is never used: the write is issued with a `NULL`
  policy. -/
  set_policy_write : Option zval → as_status
  /-- The store call `aerospike_key_put`, given the calls made so far, the key, the policy
  and the record: the status. -/
  aerospike_key_put :
    List NetCall → Option as_key → Option as_policy_write → as_record → as_status

/-- C client `as_record_inita`: an empty record.  The capacity it reserves is kept beside
the record, as the argument `capacity` of `as_record_set_nil`. -/
def as_record_inita : as_record :=
  { bins := [], gen := 0, ttl := 0 }

/-- The bins after the value of the first bin called `name` has been replaced by `value`;
`none` when no bin has that name. -/
def as_bins_update : List as_bin → String → as_val → Option (List as_bin)
  | [], _, _ => none
  | b :: rest, name, value =>
    if b.name = name then some ({ b with value := value } :: rest)
    else (as_bins_update rest name value).map (fun l => b :: l)

/-- C client `as_record_set_nil`: set the bin `name` to nil, the value that asks the store
to remove the bin.  A bin of that name is overwritten; otherwise a bin is appended when the
record has room.  The call returns `false` and leaves the record alone when the name is
`NULL` or does not fit an `as_bin_name`, or when the record is full. -/
def as_record_set_nil (E : Extern) (capacity : Nat) (rec : as_record) (name : Option String) :
    Bool × as_record :=
  match name with
  | none => (false, rec)
  | some n =>
    if n.utf8ByteSize < E.AS_BIN_NAME_MAX_SIZE then
      match as_bins_update rec.bins n as_val.nil with
      | some bins => (true, { rec with bins := bins })
      | none =>
        if rec.bins.length < capacity then
          (true, { rec with bins := rec.bins ++ [{ name := n, value := as_val.nil }] })
        else (false, rec)
    else (false, rec)

/-- The loop of `aerospike_record_operations_remove_bin` (lines 445-455) over the values of
the bin-name array: `ok` is the record when the loop ran to its end, `error` the status
with which it left through `exit`. -/
def remove_bin_loop (E : Extern) (capacity : Nat) : List zval → as_record →
    Except as_status as_record
  | [], rec => .ok rec
  | bin_names :: rest, rec =>
    if Z_TYPE bin_names = ztype.IS_STRING then
      if (as_record_set_nil E capacity rec (Z_STRVAL bin_names)).1 = false then
        .error AEROSPIKE_ERR
      else
        remove_bin_loop E capacity rest (as_record_set_nil E capacity rec (Z_STRVAL bin_names)).2
    else .error AEROSPIKE_ERR

/-- The macro `zend_hash_num_elements` on the bin-name array. -/
def zend_hash_num_elements (bins_array_p : Option (List zval)) : Nat :=
  match bins_array_p with
  | some l => l.length
  | none => 0

/-- Source `aerospike_record_operations_remove_bin` (lines 414-466).  `bins_array_p` holds
the values of the bin-name array in iteration order, `none` for a `NULL` table. -/
def aerospike_record_operations_remove_bin (E : ExternWrite) (as_object_p : Option aerospike)
    (as_key_p : Option as_key) (bins_array_p : Option (List zval)) (error_p : Option as_error)
    (options_p : Option zval) : CallResult :=
  if as_object_p.isNone ∨ error_p.isNone ∨ as_key_p.isNone ∨ bins_array_p.isNone then
    { status := AEROSPIKE_ERR, calls := [], returned := [], error := error_p }
  else if E.set_policy_write options_p ≠ AEROSPIKE_OK then
    { status := E.set_policy_write options_p, calls := [], returned := [], error := error_p }
  else
    match remove_bin_loop E.toExtern (zend_hash_num_elements bins_array_p)
        (bins_array_p.getD []) as_record_inita with
    | .error status => { status := status, calls := [], returned := [], error := error_p }
    | .ok rec =>
      { status := E.aerospike_key_put [] as_key_p none
          { rec with gen := E.get_generation_value options_p rec.gen },
        calls := [NetCall.put as_key_p none
          { rec with gen := E.get_generation_value options_p rec.gen }],
        returned := [], error := error_p }

/-- The call is an `aerospike_key_put`. -/
def NetCall.is_put : NetCall → Bool
  | .put _ _ _ => true
  | _ => false

/-- The sample store for writes: the sample store `storeInt`, a policy resolution that
succeeds and a store that accepts every write. -/
def storePut : ExternWrite :=
  { toExtern := storeInt,
    set_policy_write := fun _ => AEROSPIKE_OK,
    aerospike_key_put := fun _ _ _ _ => AEROSPIKE_OK }

/-- The sample store `storeInt` with a store that answers every batch with a record of two
bins, `a` holding the integer 1 and `b` holding bytes, and a conversion callback that
accepts integers only. -/
def storeRefusing : Extern :=
  { storeInt with
    aerospike_key_operate := fun _ _ _ _ =>
      (AEROSPIKE_OK,
       some { bins := [{ name := "a", value := as_val.integer 1 },
                       { name := "b", value := as_val.bytes [0] }], gen := 1, ttl := 0 }),
    AS_DEFAULT_GET := fun _ v =>
      match v with
      | .integer i => some (zval.long i)
      | _ => none }

/-! ## The operation list only grows, one operation at a time -/

theorem as_operations_add_capacity (E : Extern) (ops : as_operations) (name : Option String)
    (mk : String → as_binop) :
    (as_operations_add E ops name mk).2.capacity = ops.capacity := by
  unfold as_operations_add
  split <;> rfl

theorem as_operations_add_gen_ttl (E : Extern) (ops : as_operations) (name : Option String)
    (mk : String → as_binop) :
    (as_operations_add E ops name mk).2.gen = ops.gen ∧
      (as_operations_add E ops name mk).2.ttl = ops.ttl := by
  unfold as_operations_add
  split <;> exact ⟨rfl, rfl⟩

theorem as_operations_add_binops (E : Extern) (ops : as_operations) (name : Option String)
    (mk : String → as_binop) :
    (as_operations_add E ops name mk).2.binops = ops.binops ∨
      ∃ n, name = some n ∧ (as_operations_add E ops name mk).2.binops = ops.binops ++ [mk n] := by
  unfold as_operations_add as_binop_forappend
  cases name with
  | none => exact Or.inl rfl
  | some n =>
    by_cases h : ops.binops.length < ops.capacity ∧ n.utf8ByteSize < E.AS_BIN_NAME_MAX_SIZE
    · right; exact ⟨n, rfl, by simp [h]⟩
    · left; simp [h]

theorem as_operations_add_of_room (E : Extern) (ops : as_operations) (n : String)
    (mk : String → as_binop) (hroom : ops.binops.length < ops.capacity)
    (hname : n.utf8ByteSize < E.AS_BIN_NAME_MAX_SIZE) :
    as_operations_add E ops (some n) mk =
      (true, { ops with binops := ops.binops ++ [mk n] }) := by
  unfold as_operations_add as_binop_forappend
  simp [hroom, hname]

/-! ## What one call of `aerospike_record_operations_ops` can change -/

theorem ops_capacity (E : Extern) (calls : List NetCall) (as_key_p : Option as_key)
    (bin_name_p str : Option String) (offset initial_value time_to_live operation : Nat)
    (ops : as_operations) :
    (aerospike_record_operations_ops E calls as_key_p bin_name_p str offset initial_value
      time_to_live operation ops).ops.capacity = ops.capacity := by
  generalize hr : aerospike_record_operations_ops E calls as_key_p bin_name_p str offset
    initial_value time_to_live operation ops = r
  unfold aerospike_record_operations_ops at hr
  simp only [as_operations_add_append_str, as_operations_add_prepend_str,
    as_operations_add_incr, as_operations_add_touch, as_operations_add_read,
    as_operations_add_write_str, as_operations_add_write_int64] at hr
  repeat' split at hr
  all_goals subst hr
  all_goals simp only [as_operations_add_capacity]

theorem ops_calls (E : Extern) (calls : List NetCall) (as_key_p : Option as_key)
    (bin_name_p str : Option String) (offset initial_value time_to_live operation : Nat)
    (ops : as_operations) :
    (aerospike_record_operations_ops E calls as_key_p bin_name_p str offset initial_value
      time_to_live operation ops).calls = calls ∨
    (aerospike_record_operations_ops E calls as_key_p bin_name_p str offset initial_value
      time_to_live operation ops).calls =
        calls ++ [NetCall.select as_key_p (select_bins bin_name_p)] := by
  generalize hr : aerospike_record_operations_ops E calls as_key_p bin_name_p str offset
    initial_value time_to_live operation ops = r
  unfold aerospike_record_operations_ops at hr
  dsimp only at hr
  repeat' split at hr
  all_goals subst hr
  all_goals simp

theorem ops_binops (E : Extern) (calls : List NetCall) (as_key_p : Option as_key)
    (bin_name_p str : Option String) (offset initial_value time_to_live operation : Nat)
    (ops : as_operations) :
    (aerospike_record_operations_ops E calls as_key_p bin_name_p str offset initial_value
      time_to_live operation ops).ops.binops = ops.binops ∨
    ∃ op, (aerospike_record_operations_ops E calls as_key_p bin_name_p str offset initial_value
      time_to_live operation ops).ops.binops = ops.binops ++ [op] := by
  have key : ∀ (o : as_operations) (name : Option String) (mk : String → as_binop),
      o.binops = ops.binops →
      ((as_operations_add E o name mk).2.binops = ops.binops ∨
        ∃ op, (as_operations_add E o name mk).2.binops = ops.binops ++ [op]) := by
    intro o name mk ho
    rcases as_operations_add_binops E o name mk with h | ⟨n, _, h⟩
    · left; rw [h, ho]
    · right; exact ⟨mk n, by rw [h, ho]⟩
  generalize hr : aerospike_record_operations_ops E calls as_key_p bin_name_p str offset
    initial_value time_to_live operation ops = r
  unfold aerospike_record_operations_ops at hr
  simp only [as_operations_add_append_str, as_operations_add_prepend_str,
    as_operations_add_incr, as_operations_add_touch, as_operations_add_read,
    as_operations_add_write_str, as_operations_add_write_int64] at hr
  repeat' split at hr
  all_goals subst hr
  all_goals first
    | exact Or.inl rfl
    | exact key _ _ _ rfl

/-- An operation code that is none of the six case labels takes the default branch: the
call fails with `AEROSPIKE_ERR`, adds nothing and calls nothing. -/
theorem ops_default (E : Extern) (calls : List NetCall) (as_key_p : Option as_key)
    (bin_name_p str : Option String) (offset initial_value time_to_live operation : Nat)
    (ops : as_operations) (h : operation ∉ E.operators) :
    aerospike_record_operations_ops E calls as_key_p bin_name_p str offset initial_value
      time_to_live operation ops = { status := AEROSPIKE_ERR, ops := ops, calls := calls } := by
  simp only [Extern.operators, List.mem_cons, List.mem_singleton, not_or,
    List.not_mem_nil, or_false] at h
  obtain ⟨h1, h2, h3, h4, h5, h6⟩ := h
  unfold aerospike_record_operations_ops
  simp [h1, h2, h3, h4, h5, h6]

/-! ## One iteration of the outer loop -/

/-! `strcmp` on the three keys the code looks for. -/

@[simp] theorem strcmp_eq_op_op : strcmp_eq "op" "op" = true := by decide
@[simp] theorem strcmp_eq_op_bin : strcmp_eq "op" "bin" = false := by decide
@[simp] theorem strcmp_eq_op_val : strcmp_eq "op" "val" = false := by decide
@[simp] theorem strcmp_eq_bin_op : strcmp_eq "bin" "op" = false := by decide
@[simp] theorem strcmp_eq_bin_bin : strcmp_eq "bin" "bin" = true := by decide
@[simp] theorem strcmp_eq_bin_val : strcmp_eq "bin" "val" = false := by decide
@[simp] theorem strcmp_eq_val_op : strcmp_eq "val" "op" = false := by decide
@[simp] theorem strcmp_eq_val_bin : strcmp_eq "val" "bin" = false := by decide
@[simp] theorem strcmp_eq_val_val : strcmp_eq "val" "val" = true := by decide

theorem entry_calls (E : Extern) (as_key_p : Option as_key) (f : Frame) (e : zval) :
    (last_frame (operate_entry E as_key_p f e)).calls = f.calls ∨
      ∃ bins, (last_frame (operate_entry E as_key_p f e)).calls =
        f.calls ++ [NetCall.select as_key_p bins] := by
  generalize hr : operate_entry E as_key_p f e = r
  unfold operate_entry at hr
  dsimp only at hr
  split at hr
  · split at hr
    · subst hr; exact Or.inl rfl
    · subst hr; exact Or.inl rfl
    · rename_i v _
      split at hr <;> subst hr <;> simp only [last_frame]
      all_goals
        rcases ops_calls E f.calls as_key_p v.bin_name_p v.str (u_int64_of_int v.offset) 0 0
          (u_int64_of_int v.op) f.ops with h | h
        · exact Or.inl h
        · exact Or.inr ⟨_, h⟩
  · subst hr; exact Or.inl rfl

theorem entry_capacity (E : Extern) (as_key_p : Option as_key) (f : Frame) (e : zval) :
    (last_frame (operate_entry E as_key_p f e)).ops.capacity = f.ops.capacity := by
  generalize hr : operate_entry E as_key_p f e = r
  unfold operate_entry at hr
  dsimp only at hr
  split at hr
  · split at hr
    · subst hr; rfl
    · subst hr; rfl
    · split at hr <;> subst hr <;> simp only [last_frame, ops_capacity]
  · subst hr; rfl

theorem entry_binops (E : Extern) (as_key_p : Option as_key) (f : Frame) (e : zval) :
    (last_frame (operate_entry E as_key_p f e)).ops.binops = f.ops.binops ∨
      ∃ op, (last_frame (operate_entry E as_key_p f e)).ops.binops = f.ops.binops ++ [op] := by
  generalize hr : operate_entry E as_key_p f e = r
  unfold operate_entry at hr
  dsimp only at hr
  split at hr
  · split at hr
    · subst hr; exact Or.inl rfl
    · subst hr; exact Or.inl rfl
    · rename_i v _
      split at hr <;> subst hr <;> simp only [last_frame]
      all_goals
        exact ops_binops E f.calls as_key_p v.bin_name_p v.str (u_int64_of_int v.offset) 0 0
          (u_int64_of_int v.op) f.ops
  · subst hr; exact Or.inl rfl

/-- An iteration that continues leaves `status` at `AEROSPIKE_OK`. -/
theorem entry_ok_status (E : Extern) (as_key_p : Option as_key) (f f1 : Frame) (e : zval)
    (h : operate_entry E as_key_p f e = .ok f1) : f1.status = AEROSPIKE_OK := by
  unfold operate_entry at h
  dsimp only at h
  split at h
  · split at h
    · cases h
    · cases h
    · split at h
      · cases h
      · rename_i hs
        cases h
        simpa using hs
  · cases h

/-- The scan of an entry with string keys only never ends on an invalid key. -/
theorem scan_entry_string_keys (ht : HashTable) (v : EntryVars)
    (h : ∀ p ∈ ht, p.1.is_string = true) : scan_entry ht v ≠ KeyScan.invalid_key := by
  induction ht generalizing v with
  | nil => simp [scan_entry]
  | cons p rest ih =>
    obtain ⟨k, z⟩ := p
    cases k with
    | HASH_KEY_IS_LONG n =>
      have := h (HashKey.HASH_KEY_IS_LONG n, z) (List.mem_cons_self _ _)
      simp [HashKey.is_string] at this
    | HASH_KEY_IS_STRING key =>
      have hrest : ∀ p ∈ rest, p.1.is_string = true :=
        fun p hp => h p (List.mem_cons_of_mem _ hp)
      unfold scan_entry
      have hk : scan_key v key z ≠ KeyScan.invalid_key := by
        unfold scan_key
        repeat' split
        all_goals simp
      split
      · exact ih _ hrest
      · rename_i stop hstop
        exact hk

/-- An iteration that leaves through `exit` for another reason than a key that is not a
string does so with a status other than `AEROSPIKE_OK`. -/
theorem entry_error_status_of_scan (E : Extern) (as_key_p : Option as_key) (f f1 : Frame)
    (e : zval) (hk : scan_entry (Z_ARRVAL e) EntryVars.reset ≠ KeyScan.invalid_key)
    (h : operate_entry E as_key_p f e = .error f1) :
    f1.status ≠ AEROSPIKE_OK := by
  unfold operate_entry at h
  dsimp only at h
  split at h
  · split at h
    · rename_i hs
      exact absurd hs hk
    · cases h; simp
    · split at h
      · rename_i hs
        cases h
        simpa using hs
      · cases h
  · cases h; simp

/-- An entry with string keys only leaves the loop with a status other than
`AEROSPIKE_OK`, when it leaves it. -/
theorem entry_error_status (E : Extern) (as_key_p : Option as_key) (f f1 : Frame) (e : zval)
    (hk : string_keys e) (h : operate_entry E as_key_p f e = .error f1) :
    f1.status ≠ AEROSPIKE_OK :=
  entry_error_status_of_scan E as_key_p f f1 e (scan_entry_string_keys _ _ hk) h

/-! ## The outer loop -/

theorem loop_cons (E : Extern) (as_key_p : Option as_key) (e : zval) (rest : List zval)
    (f : Frame) :
    operate_loop E as_key_p (e :: rest) f =
      match operate_entry E as_key_p f e with
      | .ok f1 => operate_loop E as_key_p rest f1
      | .error f1 => .error f1 := rfl

/-- The loop over `pre ++ post` is the loop over `pre` followed, when that ran to its
end, by the loop over `post`. -/
theorem loop_append (E : Extern) (as_key_p : Option as_key) (pre post : List zval) (f : Frame) :
    operate_loop E as_key_p (pre ++ post) f =
      match operate_loop E as_key_p pre f with
      | .ok f1 => operate_loop E as_key_p post f1
      | .error f1 => .error f1 := by
  induction pre generalizing f with
  | nil => rfl
  | cons e rest ih =>
    simp only [List.cons_append, loop_cons]
    cases operate_entry E as_key_p f e with
    | ok f1 => exact ih f1
    | error f1 => rfl

/-- The store calls of the loop are reads, at most one for each entry. -/
theorem loop_calls (E : Extern) (as_key_p : Option as_key) (l : List zval) (f : Frame) :
    ∃ extra, (last_frame (operate_loop E as_key_p l f)).calls = f.calls ++ extra ∧
      (∀ c ∈ extra, c.is_select = true) ∧ extra.length ≤ l.length := by
  induction l generalizing f with
  | nil => exact ⟨[], by simp [operate_loop, last_frame], by simp, by simp⟩
  | cons e rest ih =>
    rw [loop_cons]
    have hc := entry_calls E as_key_p f e
    cases he : operate_entry E as_key_p f e with
    | ok f1 =>
      rw [he] at hc
      simp only [last_frame] at hc
      obtain ⟨extra, h1, h2, h3⟩ := ih f1
      rcases hc with hc | ⟨bins, hc⟩
      · exact ⟨extra, by rw [h1, hc], h2, by simp; omega⟩
      · refine ⟨NetCall.select as_key_p bins :: extra, by rw [h1, hc]; simp, ?_, by simp; omega⟩
        intro c hcm
        rcases List.mem_cons.mp hcm with rfl | hcm
        · rfl
        · exact h2 c hcm
    | error f1 =>
      rw [he] at hc
      simp only [last_frame] at hc ⊢
      rcases hc with hc | ⟨bins, hc⟩
      · exact ⟨[], by simp [hc], by simp, by simp⟩
      · exact ⟨[NetCall.select as_key_p bins], hc, by simp [NetCall.is_select], by simp⟩

theorem loop_capacity (E : Extern) (as_key_p : Option as_key) (l : List zval) (f : Frame) :
    (last_frame (operate_loop E as_key_p l f)).ops.capacity = f.ops.capacity := by
  induction l generalizing f with
  | nil => rfl
  | cons e rest ih =>
    rw [loop_cons]
    have hc := entry_capacity E as_key_p f e
    cases he : operate_entry E as_key_p f e with
    | ok f1 =>
      rw [he] at hc
      simp only [last_frame] at hc
      rw [ih f1, hc]
    | error f1 =>
      rw [he] at hc
      exact hc

/-- The loop adds at most one operation for each entry. -/
theorem loop_binops_length (E : Extern) (as_key_p : Option as_key) (l : List zval) (f : Frame) :
    (last_frame (operate_loop E as_key_p l f)).ops.binops.length ≤
      f.ops.binops.length + l.length := by
  induction l generalizing f with
  | nil => simp [operate_loop, last_frame]
  | cons e rest ih =>
    rw [loop_cons]
    have hb := entry_binops E as_key_p f e
    cases he : operate_entry E as_key_p f e with
    | ok f1 =>
      rw [he] at hb
      simp only [last_frame] at hb
      have := ih f1
      rcases hb with hb | ⟨op, hb⟩
      · rw [hb] at this; simp only [List.length_cons]; omega
      · rw [hb] at this; simp only [List.length_cons, List.length_append,
          List.length_nil] at this ⊢; omega
    | error f1 =>
      rw [he] at hb
      simp only [last_frame] at hb ⊢
      rcases hb with hb | ⟨op, hb⟩
      · rw [hb]; omega
      · rw [hb]; simp only [List.length_cons, List.length_append, List.length_nil]; omega

/-- A loop that ran to its end over at least one entry, or started at `AEROSPIKE_OK`,
leaves `status` at `AEROSPIKE_OK`. -/
theorem loop_ok_status (E : Extern) (as_key_p : Option as_key) (l : List zval) (f f1 : Frame)
    (hf : f.status = AEROSPIKE_OK) (h : operate_loop E as_key_p l f = .ok f1) :
    f1.status = AEROSPIKE_OK := by
  induction l generalizing f with
  | nil =>
    simp only [operate_loop] at h
    cases h
    exact hf
  | cons e rest ih =>
    rw [loop_cons] at h
    cases he : operate_entry E as_key_p f e with
    | ok f2 =>
      rw [he] at h
      exact ih f2 (entry_ok_status E as_key_p f f2 e he) h
    | error f2 =>
      rw [he] at h
      cases h

/-- A loop over entries with string keys only leaves through `exit` with a status other
than `AEROSPIKE_OK`. -/
theorem loop_error_status (E : Extern) (as_key_p : Option as_key) (l : List zval) (f f1 : Frame)
    (hk : ∀ x ∈ l, string_keys x) (h : operate_loop E as_key_p l f = .error f1) :
    f1.status ≠ AEROSPIKE_OK := by
  induction l generalizing f with
  | nil => simp [operate_loop] at h
  | cons e rest ih =>
    rw [loop_cons] at h
    cases he : operate_entry E as_key_p f e with
    | ok f2 =>
      rw [he] at h
      exact ih f2 (fun x hx => hk x (List.mem_cons_of_mem _ hx)) h
    | error f2 =>
      rw [he] at h
      cases h
      exact entry_error_status E as_key_p f f1 e (hk e (List.mem_cons_self _ _)) he

/-! ## The entry point around the loop -/

theorem operate_init_fail (E : Extern) (as_object_p : Option aerospike)
    (as_key_p : Option as_key) (options_p : Option zval) (error_p : Option as_error)
    (returned_p : List (String × zval)) (l : List zval)
    (h : (aerospike_record_initialization E as_object_p as_key_p options_p error_p).1 ≠
      AEROSPIKE_OK) :
    aerospike_record_operations_operate E as_object_p as_key_p options_p error_p returned_p l =
      { status := (aerospike_record_initialization E as_object_p as_key_p options_p error_p).1,
        calls := [], returned := returned_p, error := error_p } := by
  unfold aerospike_record_operations_operate
  simp [h]

theorem operate_init_ok (E : Extern) (as_object_p : Option aerospike)
    (as_key_p : Option as_key) (options_p : Option zval) (error_p : Option as_error)
    (returned_p : List (String × zval)) (l : List zval)
    (h : (aerospike_record_initialization E as_object_p as_key_p options_p error_p).1 =
      AEROSPIKE_OK) :
    aerospike_record_operations_operate E as_object_p as_key_p options_p error_p returned_p l =
      match operate_loop E as_key_p l (operate_start E options_p error_p AEROSPIKE_OK l.length) with
      | .error f =>
        { status := f.status, calls := f.calls, returned := returned_p, error := f.error }
      | .ok f =>
        operate_submit E as_key_p
          (aerospike_record_initialization E as_object_p as_key_p options_p error_p).2
          returned_p f := by
  unfold aerospike_record_operations_operate
  simp [h]

theorem operate_submit_calls (E : Extern) (as_key_p : Option as_key)
    (operate_policy : as_policy_operate) (returned_p : List (String × zval)) (f : Frame) :
    (operate_submit E as_key_p operate_policy returned_p f).calls =
      f.calls ++ [NetCall.operate as_key_p operate_policy f.ops] := by
  unfold operate_submit
  dsimp only
  repeat' split
  all_goals rfl

/-- When the loop leaves through `exit`, the entry point returns the status of that moment
and has made exactly the store calls of the loop. -/
theorem operate_of_loop_error (E : Extern) (as_object_p : Option aerospike)
    (as_key_p : Option as_key) (options_p : Option zval) (error_p : Option as_error)
    (returned_p : List (String × zval)) (l : List zval) (f : Frame)
    (hinit : (aerospike_record_initialization E as_object_p as_key_p options_p error_p).1 =
      AEROSPIKE_OK)
    (h : operate_loop E as_key_p l (operate_start E options_p error_p AEROSPIKE_OK l.length) =
      .error f) :
    aerospike_record_operations_operate E as_object_p as_key_p options_p error_p returned_p l =
      { status := f.status, calls := f.calls, returned := returned_p, error := f.error } := by
  rw [operate_init_ok E as_object_p as_key_p options_p error_p returned_p l hinit, h]

/-- When the loop runs to its end, the entry point submits the operation list. -/
theorem operate_of_loop_ok (E : Extern) (as_object_p : Option aerospike)
    (as_key_p : Option as_key) (options_p : Option zval) (error_p : Option as_error)
    (returned_p : List (String × zval)) (l : List zval) (f : Frame)
    (hinit : (aerospike_record_initialization E as_object_p as_key_p options_p error_p).1 =
      AEROSPIKE_OK)
    (h : operate_loop E as_key_p l (operate_start E options_p error_p AEROSPIKE_OK l.length) =
      .ok f) :
    aerospike_record_operations_operate E as_object_p as_key_p options_p error_p returned_p l =
      operate_submit E as_key_p
        (aerospike_record_initialization E as_object_p as_key_p options_p error_p).2
        returned_p f := by
  rw [operate_init_ok E as_object_p as_key_p options_p error_p returned_p l hinit, h]

/-- The loop stops at an entry that cannot be translated: nothing behind it is looked at. -/
theorem loop_stops (E : Extern) (as_key_p : Option as_key) (pre post : List zval) (e : zval)
    (f f0 f1 : Frame) (hpre : operate_loop E as_key_p pre f = .ok f0)
    (he : operate_entry E as_key_p f0 e = .error f1) :
    operate_loop E as_key_p (pre ++ e :: post) f = .error f1 := by
  rw [loop_append, hpre]
  simp only [loop_cons, he]

/-- An entry that cannot be translated in any state, and makes no store call in failing,
stops the whole call: no batch is submitted, the store calls made are reads for the
entries before it, and the status is not `AEROSPIKE_OK` when the entries before it have
string keys only. -/
theorem operate_rejects (E : Extern) (as_object_p : Option aerospike)
    (as_key_p : Option as_key) (options_p : Option zval) (error_p : Option as_error)
    (returned_p : List (String × zval)) (pre post : List zval) (e : zval)
    (he : ∀ f, ∃ f1, operate_entry E as_key_p f e = .error f1 ∧ f1.calls = f.calls ∧
      (string_keys e → f1.status ≠ AEROSPIKE_OK)) :
    ((∀ x ∈ pre ++ [e], string_keys x) →
      (aerospike_record_operations_operate E as_object_p as_key_p options_p error_p returned_p
        (pre ++ e :: post)).status ≠ AEROSPIKE_OK) ∧
    (∀ c ∈ (aerospike_record_operations_operate E as_object_p as_key_p options_p error_p
        returned_p (pre ++ e :: post)).calls, c.is_select = true) ∧
    (aerospike_record_operations_operate E as_object_p as_key_p options_p error_p returned_p
        (pre ++ e :: post)).calls.length ≤ pre.length := by
  by_cases hinit : (aerospike_record_initialization E as_object_p as_key_p options_p error_p).1 =
      AEROSPIKE_OK
  · obtain ⟨extra, hx1, hx2, hx3⟩ := loop_calls E as_key_p pre
      (operate_start E options_p error_p AEROSPIKE_OK (pre ++ e :: post).length)
    have hstart : (operate_start E options_p error_p AEROSPIKE_OK
        (pre ++ e :: post).length).calls = [] := rfl
    rw [hstart, List.nil_append] at hx1
    cases hp : operate_loop E as_key_p pre
        (operate_start E options_p error_p AEROSPIKE_OK (pre ++ e :: post).length) with
    | error f0 =>
      have hl : operate_loop E as_key_p (pre ++ e :: post)
          (operate_start E options_p error_p AEROSPIKE_OK (pre ++ e :: post).length) =
          .error f0 := by
        rw [loop_append, hp]
      rw [operate_of_loop_error E as_object_p as_key_p options_p error_p returned_p _ f0 hinit hl]
      rw [hp] at hx1
      simp only [last_frame] at hx1
      refine ⟨fun hk => ?_, ?_, ?_⟩
      · exact loop_error_status E as_key_p pre _ f0
          (fun x hx => hk x (List.mem_append_left _ hx)) hp
      · intro c hc
        exact hx2 c (by simpa [hx1] using hc)
      · simpa [hx1] using hx3
    | ok f0 =>
      obtain ⟨f1, h1, h2, h3⟩ := he f0
      have hl := loop_stops E as_key_p pre post e _ f0 f1 hp h1
      rw [operate_of_loop_error E as_object_p as_key_p options_p error_p returned_p _ f1 hinit hl]
      rw [hp] at hx1
      simp only [last_frame] at hx1
      refine ⟨fun hk => ?_, ?_, ?_⟩
      · exact h3 (hk e (by simp))
      · intro c hc
        exact hx2 c (by simpa [h2, hx1] using hc)
      · simpa [h2, hx1] using hx3
  · rw [operate_init_fail E as_object_p as_key_p options_p error_p returned_p _ hinit]
    exact ⟨fun _ => hinit, by simp, by simp⟩

/-! ## Entries the switch does not recognize -/

/-- An entry whose scan can only end with an operation code outside the six case labels
leaves the loop without a store call. -/
theorem entry_unrecognized (E : Extern) (as_key_p : Option as_key) (f : Frame) (e : zval)
    (hbad : ∀ v, scan_entry (Z_ARRVAL e) EntryVars.reset = .scanned v →
      u_int64_of_int v.op ∉ E.operators) :
    ∃ f1, operate_entry E as_key_p f e = .error f1 ∧ f1.calls = f.calls ∧
      (string_keys e → f1.status ≠ AEROSPIKE_OK) := by
  unfold operate_entry
  dsimp only
  split
  · split
    · rename_i hs
      exact ⟨_, rfl, rfl, fun hk => absurd hs (scan_entry_string_keys _ _ hk)⟩
    · exact ⟨_, rfl, rfl, fun _ => by simp⟩
    · rename_i v hs
      rw [ops_default E f.calls as_key_p v.bin_name_p v.str (u_int64_of_int v.offset) 0 0
        (u_int64_of_int v.op) f.ops (hbad v hs)]
      simp
  · exact ⟨_, rfl, rfl, fun _ => by simp⟩

/-! ## The increment branch -/

/-- With pairwise distinct case labels, the increment code selects the increment branch
(lines 55-75). -/
theorem ops_incr (E : Extern) (calls : List NetCall) (as_key_p : Option as_key)
    (bin_name_p str : Option String) (offset initial_value time_to_live : Nat)
    (ops : as_operations) (hd : E.operators.Nodup) :
    aerospike_record_operations_ops E calls as_key_p bin_name_p str offset initial_value
      time_to_live E.AS_OPERATOR_INCR ops =
    if (E.aerospike_key_select calls as_key_p (select_bins bin_name_p)).1 ≠ AEROSPIKE_OK then
      { status := (E.aerospike_key_select calls as_key_p (select_bins bin_name_p)).1,
        ops := ops, calls := calls ++ [NetCall.select as_key_p (select_bins bin_name_p)] }
    else
      match as_record_get (E.aerospike_key_select calls as_key_p (select_bins bin_name_p)).2
          bin_name_p with
      | some value_p =>
        if value_p.type = as_val_t.AS_NIL then
          if (as_operations_add_write_int64 E ops bin_name_p
              (int64_of_u_int64 initial_value)).1 = false then
            { status := AEROSPIKE_ERR,
              ops := (as_operations_add_write_int64 E ops bin_name_p
                (int64_of_u_int64 initial_value)).2,
              calls := calls ++ [NetCall.select as_key_p (select_bins bin_name_p)] }
          else
            { status := AEROSPIKE_OK,
              ops := (as_operations_add_write_int64 E ops bin_name_p
                (int64_of_u_int64 initial_value)).2,
              calls := calls ++ [NetCall.select as_key_p (select_bins bin_name_p)] }
        else
          { status := AEROSPIKE_OK,
            ops := (as_operations_add_incr E ops bin_name_p (int64_of_u_int64 offset)).2,
            calls := calls ++ [NetCall.select as_key_p (select_bins bin_name_p)] }
      | none =>
        { status := AEROSPIKE_ERR, ops := ops,
          calls := calls ++ [NetCall.select as_key_p (select_bins bin_name_p)] } := by
  simp only [Extern.operators, List.nodup_cons, List.mem_cons, List.mem_singleton, not_or,
    List.not_mem_nil, or_false] at hd
  obtain ⟨⟨_, h1, _⟩, ⟨h2, _⟩, _⟩ := hd
  unfold aerospike_record_operations_ops
  rw [if_neg (Ne.symm h1), if_neg (Ne.symm h2), if_pos rfl]

/-! ## C2 -/

/-- C2 (what the code does instead): for an increment on bin `b`, when the auxiliary read
reports a failure, "key not found" included, `aerospike_record_operations_ops` returns
that status and adds no operation; when the read succeeds with a record in which `b` is
absent, it returns `AEROSPIKE_ERR` and adds no operation.  In neither case is the
initialize-write `write_int64(b, v)` added. -/
theorem C2_increment_without_bin_fails (E : Extern) (calls : List NetCall)
    (as_key_p : Option as_key) (b : String) (str : Option String)
    (offset v time_to_live : Nat) (ops : as_operations) (hd : E.operators.Nodup) :
    ((E.aerospike_key_select calls as_key_p [b]).1 ≠ AEROSPIKE_OK →
      aerospike_record_operations_ops E calls as_key_p (some b) str offset v time_to_live
        E.AS_OPERATOR_INCR ops =
      { status := (E.aerospike_key_select calls as_key_p [b]).1, ops := ops,
        calls := calls ++ [NetCall.select as_key_p [b]] }) ∧
    ((E.aerospike_key_select calls as_key_p [b]).1 = AEROSPIKE_OK →
      as_record_get (E.aerospike_key_select calls as_key_p [b]).2 (some b) = none →
      aerospike_record_operations_ops E calls as_key_p (some b) str offset v time_to_live
        E.AS_OPERATOR_INCR ops =
      { status := AEROSPIKE_ERR, ops := ops,
        calls := calls ++ [NetCall.select as_key_p [b]] }) := by
  rw [ops_incr E calls as_key_p (some b) str offset v time_to_live ops hd]
  simp only [select_bins]
  constructor
  · intro h
    rw [if_pos h]
  · intro h hnone
    rw [if_neg (by simpa using h), hnone]

/-- C2 at the failing inputs: an increment of bin `b` with initial value 5 on a key that
does not exist returns `AEROSPIKE_ERR_RECORD_NOT_FOUND`, and on a record without the bin
returns `AEROSPIKE_ERR`; the operation list stays empty both times. -/
theorem C2_increment_without_bin_fails_witness :
    (storeNotFound.operators.Nodup ∧ storeNoBin.operators.Nodup) ∧
    aerospike_record_operations_ops storeNotFound [] sampleKey (some "b") none 3 5 0
        storeNotFound.AS_OPERATOR_INCR (as_operations_inita 1) =
      { status := AEROSPIKE_ERR_RECORD_NOT_FOUND, ops := as_operations_inita 1,
        calls := [NetCall.select sampleKey ["b"]] } ∧
    aerospike_record_operations_ops storeNoBin [] sampleKey (some "b") none 3 5 0
        storeNoBin.AS_OPERATOR_INCR (as_operations_inita 1) =
      { status := AEROSPIKE_ERR, ops := as_operations_inita 1,
        calls := [NetCall.select sampleKey ["b"]] } :=
  ⟨⟨by decide, by decide⟩,
   (C2_increment_without_bin_fails storeNotFound [] sampleKey "b" none 3 5 0
      (as_operations_inita 1) (by decide)).1 (by decide),
   (C2_increment_without_bin_fails storeNoBin [] sampleKey "b" none 3 5 0
      (as_operations_inita 1) (by decide)).2 (by decide) (by decide)⟩

/-! ## C3 -/

/-- C3: for an increment on bin `b` with offset `d`, when the auxiliary read succeeds and
`b` is present with a value whose type is not `AS_NIL`, `aerospike_record_operations_ops`
returns `AEROSPIKE_OK` and appends exactly the delta-increment `incr(b, d)`, and no write,
whatever the initial value `v`.  The list has room for one more operation and `b` fits a
bin name, as the client library requires of every operation it stores. -/
theorem C3_increment_existing_bin (E : Extern) (calls : List NetCall)
    (as_key_p : Option as_key) (b : String) (str : Option String)
    (d v time_to_live : Nat) (ops : as_operations) (value_p : as_val)
    (hd : E.operators.Nodup)
    (hread : (E.aerospike_key_select calls as_key_p [b]).1 = AEROSPIKE_OK)
    (hbin : as_record_get (E.aerospike_key_select calls as_key_p [b]).2 (some b) = some value_p)
    (hval : value_p.type ≠ as_val_t.AS_NIL)
    (hroom : ops.binops.length < ops.capacity)
    (hname : b.utf8ByteSize < E.AS_BIN_NAME_MAX_SIZE) :
    aerospike_record_operations_ops E calls as_key_p (some b) str d v time_to_live
        E.AS_OPERATOR_INCR ops =
      { status := AEROSPIKE_OK,
        ops := { ops with binops := ops.binops ++ [as_binop.incr b (int64_of_u_int64 d)] },
        calls := calls ++ [NetCall.select as_key_p [b]] } := by
  rw [ops_incr E calls as_key_p (some b) str d v time_to_live ops hd]
  simp only [select_bins]
  rw [if_neg (by simpa using hread), hbin]
  simp only [hval, if_false, as_operations_add_incr,
    as_operations_add_of_room E ops b _ hroom hname]

/-- C3, at an increment by 3 of a bin that holds 10. -/
theorem C3_increment_existing_bin_witness :
    (storeInt.operators.Nodup ∧
      (storeInt.aerospike_key_select [] sampleKey ["b"]).1 = AEROSPIKE_OK ∧
      as_record_get (storeInt.aerospike_key_select [] sampleKey ["b"]).2 (some "b") =
        some (as_val.integer 10) ∧
      (as_val.integer 10).type ≠ as_val_t.AS_NIL ∧
      (as_operations_inita 1).binops.length < (as_operations_inita 1).capacity ∧
      "b".utf8ByteSize < storeInt.AS_BIN_NAME_MAX_SIZE) ∧
    aerospike_record_operations_ops storeInt [] sampleKey (some "b") none 3 5 0
        storeInt.AS_OPERATOR_INCR (as_operations_inita 1) =
      { status := AEROSPIKE_OK,
        ops := { as_operations_inita 1 with
                 binops := (as_operations_inita 1).binops ++
                   [as_binop.incr "b" (int64_of_u_int64 3)] },
        calls := [] ++ [NetCall.select sampleKey ["b"]] } :=
  ⟨⟨by decide, by decide, by decide, by decide, by decide, by decide⟩,
   C3_increment_existing_bin storeInt [] sampleKey "b" none 3 5 0 (as_operations_inita 1)
     (as_val.integer 10) (by decide) (by decide) (by decide) (by decide) (by decide)
     (by decide)⟩

/-! ## C4 -/

theorem loop_binops_extends (E : Extern) (as_key_p : Option as_key) (l : List zval)
    (f f1 : Frame) (h : operate_loop E as_key_p l f = .ok f1) :
    f.ops.binops <+: f1.ops.binops := by
  induction l generalizing f with
  | nil =>
    simp only [operate_loop] at h
    cases h
    exact List.prefix_refl _
  | cons e rest ih =>
    rw [loop_cons] at h
    have hb := entry_binops E as_key_p f e
    cases he : operate_entry E as_key_p f e with
    | ok f2 =>
      rw [he] at h hb
      simp only [last_frame] at hb
      have h2 := ih f2 h
      rcases hb with hb | ⟨op, hb⟩
      · rw [hb] at h2; exact h2
      · rw [hb] at h2
        exact List.IsPrefix.trans (List.prefix_append _ _) h2
    | error f2 =>
      rw [he] at h
      cases h

/-- The locals when the outer loop is entered have made no call and hold an empty list
whose capacity is the number of entries. -/
theorem operate_start_room (E : Extern) (as_key_p : Option as_key) (options_p : Option zval)
    (error_p : Option as_error) (pre post : List zval) (e : zval) (f0 : Frame)
    (hpre : operate_loop E as_key_p pre
      (operate_start E options_p error_p AEROSPIKE_OK (pre ++ e :: post).length) = .ok f0) :
    f0.ops.binops.length < f0.ops.capacity := by
  have h1 := loop_binops_length E as_key_p pre
    (operate_start E options_p error_p AEROSPIKE_OK (pre ++ e :: post).length)
  have h2 := loop_capacity E as_key_p pre
    (operate_start E options_p error_p AEROSPIKE_OK (pre ++ e :: post).length)
  rw [hpre] at h1 h2
  simp only [last_frame, operate_start, as_operations_inita, List.length_nil, zero_add,
    List.length_append, List.length_cons] at h1 h2
  omega

/-- One iteration on an array whose scan ends with the locals `v`. -/
theorem entry_of_scan (E : Extern) (as_key_p : Option as_key) (f : Frame) (e : zval)
    (v : EntryVars) (harr : Z_TYPE e = ztype.IS_ARRAY)
    (hscan : scan_entry (Z_ARRVAL e) EntryVars.reset = .scanned v) :
    operate_entry E as_key_p f e =
      if (aerospike_record_operations_ops E f.calls as_key_p v.bin_name_p v.str
          (u_int64_of_int v.offset) 0 0 (u_int64_of_int v.op) f.ops).status ≠ AEROSPIKE_OK then
        .error { f with
          status := (aerospike_record_operations_ops E f.calls as_key_p v.bin_name_p v.str
            (u_int64_of_int v.offset) 0 0 (u_int64_of_int v.op) f.ops).status,
          ops := (aerospike_record_operations_ops E f.calls as_key_p v.bin_name_p v.str
            (u_int64_of_int v.offset) 0 0 (u_int64_of_int v.op) f.ops).ops,
          calls := (aerospike_record_operations_ops E f.calls as_key_p v.bin_name_p v.str
            (u_int64_of_int v.offset) 0 0 (u_int64_of_int v.op) f.ops).calls }
      else
        .ok { f with
          status := (aerospike_record_operations_ops E f.calls as_key_p v.bin_name_p v.str
            (u_int64_of_int v.offset) 0 0 (u_int64_of_int v.op) f.ops).status,
          ops := (aerospike_record_operations_ops E f.calls as_key_p v.bin_name_p v.str
            (u_int64_of_int v.offset) 0 0 (u_int64_of_int v.op) f.ops).ops,
          calls := (aerospike_record_operations_ops E f.calls as_key_p v.bin_name_p v.str
            (u_int64_of_int v.offset) 0 0 (u_int64_of_int v.op) f.ops).calls } := by
  unfold operate_entry
  rw [if_pos harr, hscan]

/-- The increment branch on a bin that the read finds holding an explicit nil: the
initialize-write is appended when the list has room and the name fits. -/
theorem ops_incr_nil (E : Extern) (calls : List NetCall) (as_key_p : Option as_key)
    (b : String) (str : Option String) (d v time_to_live : Nat) (ops : as_operations)
    (value_p : as_val) (hd : E.operators.Nodup)
    (hread : (E.aerospike_key_select calls as_key_p [b]).1 = AEROSPIKE_OK)
    (hbin : as_record_get (E.aerospike_key_select calls as_key_p [b]).2 (some b) = some value_p)
    (hval : value_p.type = as_val_t.AS_NIL)
    (hroom : ops.binops.length < ops.capacity)
    (hname : b.utf8ByteSize < E.AS_BIN_NAME_MAX_SIZE) :
    aerospike_record_operations_ops E calls as_key_p (some b) str d v time_to_live
        E.AS_OPERATOR_INCR ops =
      { status := AEROSPIKE_OK,
        ops := { ops with
                 binops := ops.binops ++ [as_binop.write_int64 b (int64_of_u_int64 v)] },
        calls := calls ++ [NetCall.select as_key_p [b]] } := by
  rw [ops_incr E calls as_key_p (some b) str d v time_to_live ops hd]
  simp only [select_bins]
  rw [if_neg (by simpa using hread), hbin]
  simp only [hval, if_true, as_operations_add_write_int64,
    as_operations_add_of_room E ops b _ hroom hname]
  simp

/-- C4, as stated, fails in `aerospike_record_operations_operate`: an increment entry with
value 7 on a bin that holds an explicit nil is submitted as `write_int64(b, 0)`.  The
entry has no field for an initial value and the entry point passes the constant 0. -/
theorem C4_counterexample :
    (aerospike_record_operations_operate storeNil sampleObject sampleKey none sampleError []
        [entry 5 "b" (.long 7)]).calls =
      [NetCall.select sampleKey ["b"],
       NetCall.operate sampleKey { fields := [] }
         { gen := 0, ttl := 0, capacity := 1, binops := [as_binop.write_int64 "b" 0] }] := by
  decide

/-- C4 (amended): for an increment on a bin `b` that the auxiliary read finds holding an
explicit nil, (1) `aerospike_record_operations_general` called with initial value `v`
issues the read and then submits exactly `[write_int64(b, v)]`; (2) in
`aerospike_record_operations_operate`, where an entry carries no initial value, the
increment entry is translated without failure into `write_int64(b, 0)`, never an
increment, and when the later entries are translated too the list submitted contains
`write_int64(b, 0)`. -/
theorem C4_nil_bin_initial_value (E : Extern) (as_object_p : Option aerospike)
    (as_key_p : Option as_key) (options_p : Option zval) (error_p : Option as_error)
    (returned_p : List (String × zval)) (b : String) (value_p : as_val)
    (hd : E.operators.Nodup)
    (hinit : (aerospike_record_initialization E as_object_p as_key_p options_p error_p).1 =
      AEROSPIKE_OK)
    (hval : value_p.type = as_val_t.AS_NIL)
    (hname : b.utf8ByteSize < E.AS_BIN_NAME_MAX_SIZE) :
    (∀ (str : Option String) (d v time_to_live : Nat),
      (E.aerospike_key_select [] as_key_p [b]).1 = AEROSPIKE_OK →
      as_record_get (E.aerospike_key_select [] as_key_p [b]).2 (some b) = some value_p →
      (aerospike_record_operations_general E as_object_p as_key_p options_p error_p (some b)
          str d v time_to_live E.AS_OPERATOR_INCR).calls =
        [NetCall.select as_key_p [b],
         NetCall.operate as_key_p
           (aerospike_record_initialization E as_object_p as_key_p options_p error_p).2
           { gen := E.get_generation_value options_p 0, ttl := 0, capacity := 1,
             binops := [as_binop.write_int64 b (int64_of_u_int64 v)] }]) ∧
    (∀ (pre post : List zval) (e : zval) (vars : EntryVars) (f0 : Frame),
      operate_loop E as_key_p pre
        (operate_start E options_p error_p AEROSPIKE_OK (pre ++ e :: post).length) = .ok f0 →
      Z_TYPE e = ztype.IS_ARRAY →
      scan_entry (Z_ARRVAL e) EntryVars.reset = .scanned vars →
      u_int64_of_int vars.op = E.AS_OPERATOR_INCR →
      vars.bin_name_p = some b →
      (E.aerospike_key_select f0.calls as_key_p [b]).1 = AEROSPIKE_OK →
      as_record_get (E.aerospike_key_select f0.calls as_key_p [b]).2 (some b) = some value_p →
      operate_entry E as_key_p f0 e =
        .ok { f0 with
              status := AEROSPIKE_OK,
              ops := { f0.ops with binops := f0.ops.binops ++ [as_binop.write_int64 b 0] },
              calls := f0.calls ++ [NetCall.select as_key_p [b]] } ∧
      ∀ f3, operate_loop E as_key_p (pre ++ e :: post)
          (operate_start E options_p error_p AEROSPIKE_OK (pre ++ e :: post).length) = .ok f3 →
        (aerospike_record_operations_operate E as_object_p as_key_p options_p error_p
            returned_p (pre ++ e :: post)).calls =
          f3.calls ++ [NetCall.operate as_key_p
            (aerospike_record_initialization E as_object_p as_key_p options_p error_p).2
            f3.ops] ∧
        as_binop.write_int64 b 0 ∈ f3.ops.binops) := by
  constructor
  · intro str d v time_to_live hread hbin
    unfold aerospike_record_operations_general
    simp only [hinit, ne_eq, not_true_eq_false, if_false]
    rw [ops_incr_nil E [] as_key_p b str d v time_to_live _ value_p hd hread hbin hval
      (by simp [as_operations_inita]) hname]
    simp [as_operations_inita]
  · intro pre post e vars f0 hpre harr hscan hop hb hread hbin
    have hroom := operate_start_room E as_key_p options_p error_p pre post e f0 hpre
    have hentry : operate_entry E as_key_p f0 e =
        .ok { f0 with
              status := AEROSPIKE_OK,
              ops := { f0.ops with binops := f0.ops.binops ++ [as_binop.write_int64 b 0] },
              calls := f0.calls ++ [NetCall.select as_key_p [b]] } := by
      rw [entry_of_scan E as_key_p f0 e vars harr hscan, hop, hb,
        ops_incr_nil E f0.calls as_key_p b vars.str _ 0 0 f0.ops value_p hd hread hbin hval
          hroom hname]
      simp [int64_of_u_int64]
    refine ⟨hentry, ?_⟩
    intro f3 hloop
    rw [operate_of_loop_ok E as_object_p as_key_p options_p error_p returned_p _ f3 hinit hloop,
      operate_submit_calls]
    refine ⟨rfl, ?_⟩
    rw [loop_append, hpre] at hloop
    simp only [loop_cons, hentry] at hloop
    have hp := loop_binops_extends E as_key_p post _ f3 hloop
    exact hp.subset (by simp)

/-- C4 (amended), at an increment with initial value 7 through the single-operation entry
point and at the batch `[increment b by 7]`, on a bin that holds an explicit nil. -/
theorem C4_nil_bin_initial_value_witness :
    (storeNil.operators.Nodup ∧
      (aerospike_record_initialization storeNil sampleObject sampleKey none sampleError).1 =
        AEROSPIKE_OK ∧
      as_val.nil.type = as_val_t.AS_NIL ∧
      "b".utf8ByteSize < storeNil.AS_BIN_NAME_MAX_SIZE) ∧
    (aerospike_record_operations_general storeNil sampleObject sampleKey none sampleError
        (some "b") none 3 7 0 storeNil.AS_OPERATOR_INCR).calls =
      [NetCall.select sampleKey ["b"],
       NetCall.operate sampleKey
         (aerospike_record_initialization storeNil sampleObject sampleKey none sampleError).2
         { gen := storeNil.get_generation_value none 0, ttl := 0, capacity := 1,
           binops := [as_binop.write_int64 "b" (int64_of_u_int64 7)] }] ∧
    operate_entry storeNil sampleKey
        (operate_start storeNil none sampleError AEROSPIKE_OK 1) (entry 5 "b" (.long 7)) =
      .ok { operate_start storeNil none sampleError AEROSPIKE_OK 1 with
            status := AEROSPIKE_OK,
            ops := { (operate_start storeNil none sampleError AEROSPIKE_OK 1).ops with
                     binops := (operate_start storeNil none sampleError AEROSPIKE_OK 1).ops.binops
                       ++ [as_binop.write_int64 "b" 0] },
            calls := (operate_start storeNil none sampleError AEROSPIKE_OK 1).calls ++
              [NetCall.select sampleKey ["b"]] } :=
  ⟨⟨by decide, by decide, by decide, by decide⟩,
   (C4_nil_bin_initial_value storeNil sampleObject sampleKey none sampleError [] "b" as_val.nil
      (by decide) (by decide) (by decide) (by decide)).1 none 3 7 0 (by decide) (by decide),
   ((C4_nil_bin_initial_value storeNil sampleObject sampleKey none sampleError [] "b" as_val.nil
      (by decide) (by decide) (by decide) (by decide)).2 [] [] (entry 5 "b" (.long 7))
      { str := none, offset := 7, op := 5, bin_name_p := some "b" }
      (operate_start storeNil none sampleError AEROSPIKE_OK 1)
      rfl (by decide) (by decide) (by decide) (by decide) (by decide) (by decide)).1⟩

/-! ## C5 -/

/-- The scan does not run to its end over an entry whose `val` is neither a string nor an
integer. -/
theorem scan_entry_unsupported_val (ht : HashTable) (z : zval) (v v1 : EntryVars)
    (hmem : (HashKey.HASH_KEY_IS_STRING "val", z) ∈ ht)
    (hs : Z_TYPE z ≠ ztype.IS_STRING) (hl : Z_TYPE z ≠ ztype.IS_LONG) :
    scan_entry ht v ≠ .scanned v1 := by
  induction ht generalizing v with
  | nil => simp at hmem
  | cons p rest ih =>
    obtain ⟨k, z1⟩ := p
    cases k with
    | HASH_KEY_IS_LONG n => simp [scan_entry]
    | HASH_KEY_IS_STRING key =>
      unfold scan_entry
      rcases List.mem_cons.mp hmem with heq | hrest
      · have hk : key = "val" := by cases heq; rfl
        have hz : z1 = z := by cases heq; rfl
        subst hk hz
        have : scan_key v "val" z1 = KeyScan.rejected := by
          unfold scan_key
          simp [hs, hl]
        rw [this]
        simp
      · split
        · exact ih _ hrest
        · rename_i stop hstop
          intro hc
          exact hstop v1 hc

/-- C5, as stated, fails: no check relates the type of `val` to the operation.  An append
entry whose `val` is the integer 5 is submitted as an append of a `NULL` string, and an
increment entry whose `val` is the string "x" is submitted as an increment by 0; both
calls return `AEROSPIKE_OK`. -/
theorem C5_counterexample :
    ((aerospike_record_operations_operate storeInt sampleObject sampleKey none sampleError []
        [entry 9 "a" (.long 5)]).calls =
      [NetCall.operate sampleKey { fields := [] }
         { gen := 0, ttl := 0, capacity := 1, binops := [as_binop.append_str "a" none] }] ∧
     (aerospike_record_operations_operate storeInt sampleObject sampleKey none sampleError []
        [entry 9 "a" (.long 5)]).status = AEROSPIKE_OK) ∧
    ((aerospike_record_operations_operate storeInt sampleObject sampleKey none sampleError []
        [entry 5 "b" (.string "x")]).calls =
      [NetCall.select sampleKey ["b"],
       NetCall.operate sampleKey { fields := [] }
         { gen := 0, ttl := 0, capacity := 1, binops := [as_binop.incr "b" 0] }] ∧
     (aerospike_record_operations_operate storeInt sampleObject sampleKey none sampleError []
        [entry 5 "b" (.string "x")]).status = AEROSPIKE_OK) := by
  refine ⟨⟨by decide, by decide⟩, ⟨by decide, by decide⟩⟩

/-- C5 (amended): the only check on `val` is that it is a string or an integer.  An entry
whose `val` is neither, its keys and those of the entries before it being strings, makes
`aerospike_record_operations_operate` return a status other than `AEROSPIKE_OK`; the batch
is never submitted (no `aerospike_key_operate`), and no read is issued for that entry or
any entry after it. -/
theorem C5_unsupported_val_rejected (E : Extern) (as_object_p : Option aerospike)
    (as_key_p : Option as_key) (options_p : Option zval) (error_p : Option as_error)
    (returned_p : List (String × zval)) (pre post : List zval) (e z : zval)
    (hmem : (HashKey.HASH_KEY_IS_STRING "val", z) ∈ Z_ARRVAL e)
    (hs : Z_TYPE z ≠ ztype.IS_STRING) (hl : Z_TYPE z ≠ ztype.IS_LONG)
    (hkeys : ∀ x ∈ pre ++ [e], string_keys x) :
    (aerospike_record_operations_operate E as_object_p as_key_p options_p error_p returned_p
        (pre ++ e :: post)).status ≠ AEROSPIKE_OK ∧
    (∀ c ∈ (aerospike_record_operations_operate E as_object_p as_key_p options_p error_p
        returned_p (pre ++ e :: post)).calls, c.is_select = true) ∧
    (aerospike_record_operations_operate E as_object_p as_key_p options_p error_p returned_p
        (pre ++ e :: post)).calls.length ≤ pre.length := by
  have he : ∀ f, ∃ f1, operate_entry E as_key_p f e = .error f1 ∧ f1.calls = f.calls ∧
      (string_keys e → f1.status ≠ AEROSPIKE_OK) := by
    intro f
    apply entry_unrecognized
    intro v hv
    exact absurd hv (scan_entry_unsupported_val _ z _ v hmem hs hl)
  obtain ⟨h1, h2, h3⟩ := operate_rejects E as_object_p as_key_p options_p error_p returned_p
    pre post e he
  exact ⟨h1 hkeys, h2, h3⟩

/-- C5 (amended), at the batch `[read a, append to a the value true]`. -/
theorem C5_unsupported_val_rejected_witness :
    ((HashKey.HASH_KEY_IS_STRING "val", zval.bool true) ∈ Z_ARRVAL (entry 9 "a" (.bool true)) ∧
      Z_TYPE (zval.bool true) ≠ ztype.IS_STRING ∧ Z_TYPE (zval.bool true) ≠ ztype.IS_LONG ∧
      (∀ x ∈ [entry 1 "a" (.long 0)] ++ [entry 9 "a" (.bool true)], string_keys x)) ∧
    ((aerospike_record_operations_operate storeInt sampleObject sampleKey none sampleError []
        ([entry 1 "a" (.long 0)] ++ entry 9 "a" (.bool true) :: [])).status ≠ AEROSPIKE_OK ∧
    (∀ c ∈ (aerospike_record_operations_operate storeInt sampleObject sampleKey none sampleError
        [] ([entry 1 "a" (.long 0)] ++ entry 9 "a" (.bool true) :: [])).calls,
        c.is_select = true) ∧
    (aerospike_record_operations_operate storeInt sampleObject sampleKey none sampleError []
        ([entry 1 "a" (.long 0)] ++ entry 9 "a" (.bool true) :: [])).calls.length ≤
      [entry 1 "a" (.long 0)].length) :=
  ⟨⟨by simp [entry, Z_ARRVAL], by decide, by decide, by decide⟩,
   C5_unsupported_val_rejected storeInt sampleObject sampleKey none sampleError []
     [entry 1 "a" (.long 0)] [] (entry 9 "a" (.bool true)) (.bool true)
     (by simp [entry, Z_ARRVAL]) (by decide) (by decide) (by decide)⟩

/-! ## C8 -/

theorem switch_code_small (k : Nat) (h : k < 2 ^ 31) :
    u_int64_of_int (int_of_uint32 (uint32_of_long (k : Int))) = k := by
  have h1 : uint32_of_long (k : Int) = k := by
    unfold uint32_of_long
    omega
  rw [h1]
  unfold int_of_uint32 u_int64_of_int
  rw [if_pos h]
  omega

/-- With pairwise distinct case labels, each code selects its own branch of the switch. -/
theorem ops_branches (E : Extern) (calls : List NetCall) (as_key_p : Option as_key)
    (bin_name_p str : Option String) (offset initial_value time_to_live : Nat)
    (ops : as_operations) (hd : E.operators.Nodup) :
    aerospike_record_operations_ops E calls as_key_p bin_name_p str offset initial_value
        time_to_live E.AS_OPERATOR_APPEND ops =
      { status := AEROSPIKE_OK, ops := (as_operations_add_append_str E ops bin_name_p str).2,
        calls := calls } ∧
    aerospike_record_operations_ops E calls as_key_p bin_name_p str offset initial_value
        time_to_live E.AS_OPERATOR_PREPEND ops =
      { status := AEROSPIKE_OK, ops := (as_operations_add_prepend_str E ops bin_name_p str).2,
        calls := calls } ∧
    aerospike_record_operations_ops E calls as_key_p bin_name_p str offset initial_value
        time_to_live E.AS_OPERATOR_TOUCH ops =
      { status := AEROSPIKE_OK,
        ops := (as_operations_add_touch E
          { ops with ttl := uint32_of_u_int64 time_to_live }).2,
        calls := calls } ∧
    aerospike_record_operations_ops E calls as_key_p bin_name_p str offset initial_value
        time_to_live E.AS_OPERATOR_READ ops =
      { status := AEROSPIKE_OK, ops := (as_operations_add_read E ops bin_name_p).2,
        calls := calls } ∧
    aerospike_record_operations_ops E calls as_key_p bin_name_p str offset initial_value
        time_to_live E.AS_OPERATOR_WRITE ops =
      match str with
      | some s =>
        { status := AEROSPIKE_OK,
          ops := (as_operations_add_write_str E ops bin_name_p (some s)).2, calls := calls }
      | none =>
        { status := AEROSPIKE_OK,
          ops := (as_operations_add_write_int64 E ops bin_name_p (int64_of_u_int64 offset)).2,
          calls := calls } := by
  simp only [Extern.operators, List.nodup_cons, List.mem_cons, List.mem_singleton, not_or,
    List.not_mem_nil, or_false] at hd
  obtain ⟨⟨a1, a2, a3, a4, a5⟩, ⟨b1, b2, b3, b4⟩, ⟨c1, c2, c3⟩, ⟨d1, d2⟩, e1, _⟩ := hd
  refine ⟨?_, ?_, ?_, ?_, ?_⟩
  all_goals unfold aerospike_record_operations_ops
  · simp
  · simp [Ne.symm a1]
  · simp [Ne.symm a3, Ne.symm b2, Ne.symm c1]
  · simp [Ne.symm a4, Ne.symm b3, Ne.symm c2, Ne.symm d1]
  · simp only [Ne.symm a5, Ne.symm b4, Ne.symm c3, Ne.symm d2, Ne.symm e1, if_false, if_true]

theorem entry_step_ok (f : Frame) (r : OpsResult) (hr : r.status = AEROSPIKE_OK) :
    (if r.status ≠ AEROSPIKE_OK then
        (.error { f with status := r.status, ops := r.ops, calls := r.calls } :
          Except Frame Frame)
      else .ok { f with status := r.status, ops := r.ops, calls := r.calls }) =
    .ok { f with status := AEROSPIKE_OK, ops := r.ops, calls := r.calls } := by
  rw [if_neg (by simpa using hr), hr]

theorem ops_ttl (E : Extern) (calls : List NetCall) (as_key_p : Option as_key)
    (bin_name_p str : Option String) (offset initial_value time_to_live operation : Nat)
    (ops : as_operations) :
    (aerospike_record_operations_ops E calls as_key_p bin_name_p str offset initial_value
      time_to_live operation ops).ops.ttl = ops.ttl ∨
    (aerospike_record_operations_ops E calls as_key_p bin_name_p str offset initial_value
      time_to_live operation ops).ops.ttl = uint32_of_u_int64 time_to_live := by
  generalize hr : aerospike_record_operations_ops E calls as_key_p bin_name_p str offset
    initial_value time_to_live operation ops = r
  unfold aerospike_record_operations_ops at hr
  simp only [as_operations_add_append_str, as_operations_add_prepend_str,
    as_operations_add_incr, as_operations_add_touch, as_operations_add_read,
    as_operations_add_write_str, as_operations_add_write_int64] at hr
  repeat' split at hr
  all_goals subst hr
  all_goals simp only [(as_operations_add_gen_ttl E _ _ _).2, true_or, or_true]

/-- In `aerospike_record_operations_operate` the ttl of the operation list stays 0. -/
theorem loop_ttl (E : Extern) (as_key_p : Option as_key) (l : List zval) (f : Frame)
    (h : f.ops.ttl = 0) : (last_frame (operate_loop E as_key_p l f)).ops.ttl = 0 := by
  induction l generalizing f with
  | nil => exact h
  | cons e rest ih =>
    rw [loop_cons]
    have hstep : (last_frame (operate_entry E as_key_p f e)).ops.ttl = 0 := by
      generalize hr : operate_entry E as_key_p f e = r
      unfold operate_entry at hr
      dsimp only at hr
      split at hr
      · split at hr
        · subst hr; exact h
        · subst hr; exact h
        · rename_i v _
          have ht := ops_ttl E f.calls as_key_p v.bin_name_p v.str (u_int64_of_int v.offset) 0 0
            (u_int64_of_int v.op) f.ops
          split at hr <;> subst hr <;> simp only [last_frame]
          all_goals
            rcases ht with ht | ht
            · rw [ht]; exact h
            · rw [ht]; rfl
      · subst hr; exact h
    cases he : operate_entry E as_key_p f e with
    | ok f1 =>
      rw [he] at hstep
      exact ih f1 hstep
    | error f1 =>
      rw [he] at hstep
      exact hstep

/-- C9, as stated, fails: (1) a touch entry carrying the integer 60 in
`aerospike_record_operations_operate` is submitted with the record-level ttl 0, because
the entry point passes the constant 0 for the ttl; (2) through
`aerospike_record_operations_general` a ttl of 2^32 is stored as 0 in the 32-bit field. -/
theorem C9_counterexample :
    (aerospike_record_operations_operate storeInt sampleObject sampleKey none sampleError []
        [.array [(.HASH_KEY_IS_STRING "op", .long 11),
                 (.HASH_KEY_IS_STRING "val", .long 60)]]).calls =
      [NetCall.operate sampleKey { fields := [] }
         { gen := 0, ttl := 0, capacity := 1, binops := [as_binop.touch] }] ∧
    (aerospike_record_operations_general storeInt sampleObject sampleKey none sampleError
        none none 0 0 4294967296 storeInt.AS_OPERATOR_TOUCH).calls =
      [NetCall.operate sampleKey { fields := [] }
         { gen := 0, ttl := 0, capacity := 1, binops := [as_binop.touch] }] := by
  refine ⟨by decide, by decide⟩

/-- C9 (amended): (1) a touch issued through `aerospike_record_operations_general` with
`time_to_live = t`, `t` below 2^32, submits a list whose ttl field is `t` and whose only
operation is one touch; (2) a touch entry of `aerospike_record_operations_operate` adds
exactly one touch operation and no bin operation, but the entry has no field for a ttl:
the ttl field is set to 0 whatever integer the entry carries, and the list submitted has
ttl 0. -/
theorem C9_touch_ttl (E : Extern) (as_object_p : Option aerospike)
    (as_key_p : Option as_key) (options_p : Option zval) (error_p : Option as_error)
    (returned_p : List (String × zval))
    (hd : E.operators.Nodup) (hmax : 0 < E.AS_BIN_NAME_MAX_SIZE)
    (hinit : (aerospike_record_initialization E as_object_p as_key_p options_p error_p).1 =
      AEROSPIKE_OK) :
    (∀ (bin_name_p str : Option String) (offset initial_value t : Nat), t < 2 ^ 32 →
      (aerospike_record_operations_general E as_object_p as_key_p options_p error_p bin_name_p
          str offset initial_value t E.AS_OPERATOR_TOUCH).calls =
        [NetCall.operate as_key_p
           (aerospike_record_initialization E as_object_p as_key_p options_p error_p).2
           { gen := E.get_generation_value options_p 0, ttl := t, capacity := 1,
             binops := [as_binop.touch] }]) ∧
    (∀ (pre post : List zval) (e : zval) (vars : EntryVars) (f0 : Frame),
      operate_loop E as_key_p pre
        (operate_start E options_p error_p AEROSPIKE_OK (pre ++ e :: post).length) = .ok f0 →
      Z_TYPE e = ztype.IS_ARRAY →
      scan_entry (Z_ARRVAL e) EntryVars.reset = .scanned vars →
      u_int64_of_int vars.op = E.AS_OPERATOR_TOUCH →
      operate_entry E as_key_p f0 e =
        .ok { f0 with
              status := AEROSPIKE_OK,
              ops := { f0.ops with ttl := 0, binops := f0.ops.binops ++ [as_binop.touch] } } ∧
      ∀ f3, operate_loop E as_key_p (pre ++ e :: post)
          (operate_start E options_p error_p AEROSPIKE_OK (pre ++ e :: post).length) = .ok f3 →
        (aerospike_record_operations_operate E as_object_p as_key_p options_p error_p
            returned_p (pre ++ e :: post)).calls =
          f3.calls ++ [NetCall.operate as_key_p
            (aerospike_record_initialization E as_object_p as_key_p options_p error_p).2
            f3.ops] ∧
        f3.ops.ttl = 0 ∧ as_binop.touch ∈ f3.ops.binops) := by
  constructor
  · intro bin_name_p str offset initial_value t ht
    unfold aerospike_record_operations_general
    simp only [hinit, ne_eq, not_true_eq_false, if_false]
    rw [(ops_branches E [] as_key_p bin_name_p str offset initial_value t _ hd).2.2.1]
    simp only [as_operations_add_touch, as_operations_inita]
    rw [as_operations_add_of_room E _ "" _ (by simp) (by simpa using hmax)]
    have ht2 : t < 4294967296 := by omega
    simp [uint32_of_u_int64, Nat.mod_eq_of_lt ht2]
  · intro pre post e vars f0 hpre harr hscan hop
    have hroom := operate_start_room E as_key_p options_p error_p pre post e f0 hpre
    have hentry : operate_entry E as_key_p f0 e =
        .ok { f0 with
              status := AEROSPIKE_OK,
              ops := { f0.ops with ttl := 0, binops := f0.ops.binops ++ [as_binop.touch] } } := by
      rw [entry_of_scan E as_key_p f0 e vars harr hscan, hop,
        (ops_branches E f0.calls as_key_p _ _ _ 0 0 f0.ops hd).2.2.1, entry_step_ok f0 _ rfl]
      have hadd := as_operations_add_of_room E { f0.ops with ttl := uint32_of_u_int64 0 } ""
        (fun _ => as_binop.touch) hroom (by simpa using hmax)
      simp only [as_operations_add_touch, hadd]
      rfl
    refine ⟨hentry, ?_⟩
    intro f3 hloop
    rw [operate_of_loop_ok E as_object_p as_key_p options_p error_p returned_p _ f3 hinit hloop,
      operate_submit_calls]
    refine ⟨rfl, ?_, ?_⟩
    · have := loop_ttl E as_key_p (pre ++ e :: post)
        (operate_start E options_p error_p AEROSPIKE_OK (pre ++ e :: post).length) rfl
      rw [hloop] at this
      exact this
    · rw [loop_append, hpre] at hloop
      simp only [loop_cons, hentry] at hloop
      have hp := loop_binops_extends E as_key_p post _ f3 hloop
      exact hp.subset (by simp)

/-- C9 (amended), at a touch with ttl 60 through the single-operation entry point and at
the batch `[touch carrying 60]`. -/
theorem C9_touch_ttl_witness :
    (storeInt.operators.Nodup ∧ 0 < storeInt.AS_BIN_NAME_MAX_SIZE ∧
      (aerospike_record_initialization storeInt sampleObject sampleKey none sampleError).1 =
        AEROSPIKE_OK) ∧
    (aerospike_record_operations_general storeInt sampleObject sampleKey none sampleError none
        none 0 0 60 storeInt.AS_OPERATOR_TOUCH).calls =
      [NetCall.operate sampleKey
         (aerospike_record_initialization storeInt sampleObject sampleKey none sampleError).2
         { gen := storeInt.get_generation_value none 0, ttl := 60, capacity := 1,
           binops := [as_binop.touch] }] ∧
    operate_entry storeInt sampleKey (operate_start storeInt none sampleError AEROSPIKE_OK 1)
        (.array [(.HASH_KEY_IS_STRING "op", .long 11), (.HASH_KEY_IS_STRING "val", .long 60)]) =
      .ok { operate_start storeInt none sampleError AEROSPIKE_OK 1 with
            status := AEROSPIKE_OK,
            ops := { (operate_start storeInt none sampleError AEROSPIKE_OK 1).ops with
                     ttl := 0,
                     binops := (operate_start storeInt none sampleError AEROSPIKE_OK 1).ops.binops
                       ++ [as_binop.touch] } } :=
  ⟨⟨by decide, by decide, by decide⟩,
   (C9_touch_ttl storeInt sampleObject sampleKey none sampleError [] (by decide) (by decide)
      (by decide)).1 none none 0 0 60 (by decide),
   ((C9_touch_ttl storeInt sampleObject sampleKey none sampleError [] (by decide) (by decide)
      (by decide)).2 [] []
      (.array [(.HASH_KEY_IS_STRING "op", .long 11), (.HASH_KEY_IS_STRING "val", .long 60)])
      { str := none, offset := 60, op := 11, bin_name_p := none }
      (operate_start storeInt none sampleError AEROSPIKE_OK 1) rfl (by decide) (by decide)
      (by decide)).1⟩

/-! ## C10 -/

/-- The integer a `val` becomes on its way into an operation is its value modulo 2^32,
read as a signed 32-bit number. -/
theorem carried_int64_eq (v : Int) :
    carried_int64 v = if v % 2 ^ 32 < 2 ^ 31 then v % 2 ^ 32 else v % 2 ^ 32 - 2 ^ 32 := by
  unfold carried_int64 int64_of_u_int64 u_int64_of_int int_of_uint32 uint32_of_long
  split_ifs <;> omega

theorem carried_int64_eq_self_iff (v : Int) :
    carried_int64 v = v ↔ -2 ^ 31 ≤ v ∧ v < 2 ^ 31 := by
  rw [carried_int64_eq]
  split_ifs <;> omega

/-- One iteration on a write entry whose `val` is an integer. -/
theorem entry_write_int (E : Extern) (as_key_p : Option as_key) (f : Frame) (a : String)
    (v : Int) (hd : E.operators.Nodup) (hsmall : ∀ k ∈ E.operators, k < 2 ^ 31)
    (hroom : f.ops.binops.length < f.ops.capacity)
    (hname : a.utf8ByteSize < E.AS_BIN_NAME_MAX_SIZE) :
    operate_entry E as_key_p f (entry (E.AS_OPERATOR_WRITE : Int) a (.long v)) =
      .ok { f with
            status := AEROSPIKE_OK,
            ops := { f.ops with
                     binops := f.ops.binops ++ [as_binop.write_int64 a (carried_int64 v)] } } := by
  have hscan : scan_entry (Z_ARRVAL (entry (E.AS_OPERATOR_WRITE : Int) a (.long v)))
      EntryVars.reset =
      .scanned { str := none, offset := int_of_uint32 (uint32_of_long v),
                 op := int_of_uint32 (uint32_of_long (E.AS_OPERATOR_WRITE : Int)),
                 bin_name_p := some a } := by
    simp [entry, Z_ARRVAL, scan_entry, scan_key, Z_TYPE, Z_LVAL, Z_STRVAL, EntryVars.reset]
  rw [entry_of_scan E as_key_p f _ _ (by rfl) hscan]
  dsimp only
  rw [switch_code_small _ (hsmall _ (by simp [Extern.operators])),
    (ops_branches E f.calls as_key_p (some a) none _ 0 0 f.ops hd).2.2.2.2]
  dsimp only
  rw [if_neg (fun h => h rfl)]
  simp only [as_operations_add_write_int64, as_operations_add_of_room E f.ops a _ hroom hname]
  rfl

/-- One iteration on a write entry whose `val` is a string. -/
theorem entry_write_str (E : Extern) (as_key_p : Option as_key) (f : Frame) (a s : String)
    (hd : E.operators.Nodup) (hsmall : ∀ k ∈ E.operators, k < 2 ^ 31)
    (hroom : f.ops.binops.length < f.ops.capacity)
    (hname : a.utf8ByteSize < E.AS_BIN_NAME_MAX_SIZE) :
    operate_entry E as_key_p f (entry (E.AS_OPERATOR_WRITE : Int) a (.string s)) =
      .ok { f with
            status := AEROSPIKE_OK,
            ops := { f.ops with
                     binops := f.ops.binops ++ [as_binop.write_str a (some s)] } } := by
  have hscan : scan_entry (Z_ARRVAL (entry (E.AS_OPERATOR_WRITE : Int) a (.string s)))
      EntryVars.reset =
      .scanned { str := some s, offset := 0,
                 op := int_of_uint32 (uint32_of_long (E.AS_OPERATOR_WRITE : Int)),
                 bin_name_p := some a } := by
    simp [entry, Z_ARRVAL, scan_entry, scan_key, Z_TYPE, Z_LVAL, Z_STRVAL, EntryVars.reset]
  rw [entry_of_scan E as_key_p f _ _ (by rfl) hscan]
  dsimp only
  rw [switch_code_small _ (hsmall _ (by simp [Extern.operators])),
    (ops_branches E f.calls as_key_p (some a) (some s) _ 0 0 f.ops hd).2.2.2.2]
  dsimp only
  rw [if_neg (fun h => h rfl)]
  simp only [as_operations_add_write_str, as_operations_add_of_room E f.ops a _ hroom hname]

/-- One iteration on a read entry. -/
theorem entry_read (E : Extern) (as_key_p : Option as_key) (f : Frame) (a : String)
    (hd : E.operators.Nodup) (hsmall : ∀ k ∈ E.operators, k < 2 ^ 31)
    (hroom : f.ops.binops.length < f.ops.capacity)
    (hname : a.utf8ByteSize < E.AS_BIN_NAME_MAX_SIZE) :
    operate_entry E as_key_p f (entry_no_val (E.AS_OPERATOR_READ : Int) a) =
      .ok { f with
            status := AEROSPIKE_OK,
            ops := { f.ops with binops := f.ops.binops ++ [as_binop.read a] } } := by
  have hscan : scan_entry (Z_ARRVAL (entry_no_val (E.AS_OPERATOR_READ : Int) a))
      EntryVars.reset =
      .scanned { str := none, offset := 0,
                 op := int_of_uint32 (uint32_of_long (E.AS_OPERATOR_READ : Int)),
                 bin_name_p := some a } := by
    simp [entry_no_val, Z_ARRVAL, scan_entry, scan_key, Z_TYPE, Z_LVAL, Z_STRVAL,
      EntryVars.reset]
  rw [entry_of_scan E as_key_p f _ _ (by rfl) hscan]
  dsimp only
  rw [switch_code_small _ (hsmall _ (by simp [Extern.operators])),
    (ops_branches E f.calls as_key_p (some a) none _ 0 0 f.ops hd).2.2.2.1,
    entry_step_ok f _ rfl]
  simp only [as_operations_add_read, as_operations_add_of_room E f.ops a _ hroom hname]

/-- C10 (what the code does): for every bin name `a` that fits an `as_bin_name` and every
integer `v`, the batch `[Write(bin=a, val=v), Read(bin=a)]` is submitted as
`[write_int64(a, w), read(a)]`, where `w` is `v` narrowed to 32 bits and sign-extended:
`w = v` exactly when `v` lies in the signed 32-bit range, so a 64-bit `v` outside that
range is written as a different integer.  For every string `s`, `Write(bin=a, val=s)` is
submitted as `[write_str(a, s)]`. -/
theorem C10_write_then_read (E : Extern) (as_object_p : Option aerospike)
    (as_key_p : Option as_key) (options_p : Option zval) (error_p : Option as_error)
    (returned_p : List (String × zval)) (a : String) (v : Int)
    (hd : E.operators.Nodup) (hsmall : ∀ k ∈ E.operators, k < 2 ^ 31)
    (hinit : (aerospike_record_initialization E as_object_p as_key_p options_p error_p).1 =
      AEROSPIKE_OK)
    (hname : a.utf8ByteSize < E.AS_BIN_NAME_MAX_SIZE) :
    (aerospike_record_operations_operate E as_object_p as_key_p options_p error_p returned_p
        [entry (E.AS_OPERATOR_WRITE : Int) a (.long v),
         entry_no_val (E.AS_OPERATOR_READ : Int) a]).calls =
      [NetCall.operate as_key_p
         (aerospike_record_initialization E as_object_p as_key_p options_p error_p).2
         { gen := E.get_generation_value options_p 0, ttl := 0, capacity := 2,
           binops := [as_binop.write_int64 a (carried_int64 v), as_binop.read a] }] ∧
    (carried_int64 v = v ↔ -2 ^ 31 ≤ v ∧ v < 2 ^ 31) ∧
    (∀ s : String,
      (aerospike_record_operations_operate E as_object_p as_key_p options_p error_p returned_p
          [entry (E.AS_OPERATOR_WRITE : Int) a (.string s)]).calls =
        [NetCall.operate as_key_p
           (aerospike_record_initialization E as_object_p as_key_p options_p error_p).2
           { gen := E.get_generation_value options_p 0, ttl := 0, capacity := 1,
             binops := [as_binop.write_str a (some s)] }]) := by
  refine ⟨?_, carried_int64_eq_self_iff v, ?_⟩
  · have hloop : operate_loop E as_key_p
        [entry (E.AS_OPERATOR_WRITE : Int) a (.long v),
         entry_no_val (E.AS_OPERATOR_READ : Int) a]
        (operate_start E options_p error_p AEROSPIKE_OK 2) =
        .ok { status := AEROSPIKE_OK,
              ops := { gen := E.get_generation_value options_p 0, ttl := 0, capacity := 2,
                       binops := [as_binop.write_int64 a (carried_int64 v), as_binop.read a] },
              calls := [], error := error_p } := by
      rw [loop_cons, entry_write_int E as_key_p _ a v hd hsmall
        (by simp [operate_start, as_operations_inita]) hname]
      dsimp only
      rw [loop_cons, entry_read E as_key_p _ a hd hsmall
        (by simp [operate_start, as_operations_inita]) hname]
      rfl
    rw [operate_of_loop_ok E as_object_p as_key_p options_p error_p returned_p _ _ hinit hloop,
      operate_submit_calls]
    rfl
  · intro s
    have hloop : operate_loop E as_key_p [entry (E.AS_OPERATOR_WRITE : Int) a (.string s)]
        (operate_start E options_p error_p AEROSPIKE_OK 1) =
        .ok { status := AEROSPIKE_OK,
              ops := { gen := E.get_generation_value options_p 0, ttl := 0, capacity := 1,
                       binops := [as_binop.write_str a (some s)] },
              calls := [], error := error_p } := by
      rw [loop_cons, entry_write_str E as_key_p _ a s hd hsmall
        (by simp [operate_start, as_operations_inita]) hname]
      rfl
    rw [operate_of_loop_ok E as_object_p as_key_p options_p error_p returned_p _ _ hinit hloop,
      operate_submit_calls]
    rfl

/-- C10 at the failing input: the batch `[Write(bin="a", val=2147483648), Read(bin="a")]`
is submitted as `[write_int64("a", -2147483648), read("a")]`. -/
theorem C10_write_then_read_witness :
    (storeInt.operators.Nodup ∧ (∀ k ∈ storeInt.operators, k < 2 ^ 31) ∧
      (aerospike_record_initialization storeInt sampleObject sampleKey none sampleError).1 =
        AEROSPIKE_OK ∧
      "a".utf8ByteSize < storeInt.AS_BIN_NAME_MAX_SIZE) ∧
    (aerospike_record_operations_operate storeInt sampleObject sampleKey none sampleError []
        [entry (storeInt.AS_OPERATOR_WRITE : Int) "a" (.long 2147483648),
         entry_no_val (storeInt.AS_OPERATOR_READ : Int) "a"]).calls =
      [NetCall.operate sampleKey
         (aerospike_record_initialization storeInt sampleObject sampleKey none sampleError).2
         { gen := storeInt.get_generation_value none 0, ttl := 0, capacity := 2,
           binops := [as_binop.write_int64 "a" (carried_int64 2147483648),
                      as_binop.read "a"] }] ∧
    carried_int64 2147483648 = -2147483648 :=
  ⟨⟨by decide, by decide, by decide, by decide⟩,
   (C10_write_then_read storeInt sampleObject sampleKey none sampleError [] "a" 2147483648
     (by decide) (by decide) (by decide) (by decide)).1,
   by decide⟩

/-! ## C11 -/

theorem as_bins_update_none (bins : List as_bin) (n : String) (v : as_val)
    (h : as_bins_update bins n v = none) : n ∉ bins.map as_bin.name := by
  induction bins with
  | nil => simp
  | cons b rest ih =>
    unfold as_bins_update at h
    by_cases hb : b.name = n
    · simp [hb] at h
    · simp only [hb, if_false, Option.map_eq_none'] at h
      simp only [List.map_cons, List.mem_cons, not_or]
      exact ⟨fun hc => hb hc.symm, ih h⟩

/-- Overwriting a bin keeps the names of the bins, in order, and gives the new value to
every bin it changes. -/
theorem as_bins_update_some (bins bins1 : List as_bin) (n : String) (v : as_val)
    (h : as_bins_update bins n v = some bins1) :
    bins1.map as_bin.name = bins.map as_bin.name ∧ n ∈ bins.map as_bin.name ∧
      ∀ b ∈ bins1, b.value = v ∨ b ∈ bins := by
  induction bins generalizing bins1 with
  | nil => simp [as_bins_update] at h
  | cons b rest ih =>
    unfold as_bins_update at h
    by_cases hb : b.name = n
    · simp only [hb, if_true, Option.some.injEq] at h
      subst h
      refine ⟨by simp [hb], by simp [hb], ?_⟩
      intro b1 hb1
      rcases List.mem_cons.mp hb1 with rfl | hb1
      · exact Or.inl rfl
      · exact Or.inr (List.mem_cons_of_mem _ hb1)
    · simp only [hb, if_false, Option.map_eq_some'] at h
      obtain ⟨l, hl, rfl⟩ := h
      obtain ⟨h1, h2, h3⟩ := ih l hl
      refine ⟨by simp [h1], by simp [h2], ?_⟩
      intro b1 hb1
      rcases List.mem_cons.mp hb1 with rfl | hb1
      · exact Or.inr (List.mem_cons_self _ _)
      · rcases h3 b1 hb1 with h | h
        · exact Or.inl h
        · exact Or.inr (List.mem_cons_of_mem _ h)

/-- What a successful `as_record_set_nil` does to a record: the bin `n` is there
afterwards, no other name is added, every changed or added bin holds nil, at most one bin
is added, and generation and ttl are untouched. -/
theorem as_record_set_nil_spec (E : Extern) (capacity : Nat) (rec : as_record) (n : String)
    (hfit : n.utf8ByteSize < E.AS_BIN_NAME_MAX_SIZE)
    (hroom : n ∈ rec.bins.map as_bin.name ∨ rec.bins.length < capacity) :
    (as_record_set_nil E capacity rec (some n)).1 = true ∧
    (∀ t, t ∈ (as_record_set_nil E capacity rec (some n)).2.bins.map as_bin.name ↔
      t ∈ rec.bins.map as_bin.name ∨ t = n) ∧
    (∀ b ∈ (as_record_set_nil E capacity rec (some n)).2.bins,
      b.value = as_val.nil ∨ b ∈ rec.bins) ∧
    ((as_record_set_nil E capacity rec (some n)).2.bins.length = rec.bins.length ∧
        n ∈ rec.bins.map as_bin.name ∨
      (as_record_set_nil E capacity rec (some n)).2.bins.length = rec.bins.length + 1 ∧
        n ∉ rec.bins.map as_bin.name) ∧
    (as_record_set_nil E capacity rec (some n)).2.gen = rec.gen ∧
    (as_record_set_nil E capacity rec (some n)).2.ttl = rec.ttl := by
  have key : as_record_set_nil E capacity rec (some n) =
      match as_bins_update rec.bins n as_val.nil with
      | some bins => (true, { rec with bins := bins })
      | none =>
        if rec.bins.length < capacity then
          (true, { rec with bins := rec.bins ++ [{ name := n, value := as_val.nil }] })
        else (false, rec) := by
    unfold as_record_set_nil
    dsimp only
    rw [if_pos hfit]
  rw [key]
  cases hu : as_bins_update rec.bins n as_val.nil with
  | some bins1 =>
    obtain ⟨h1, h2, h3⟩ := as_bins_update_some rec.bins bins1 n as_val.nil hu
    dsimp only
    refine ⟨rfl, ?_, h3, Or.inl ⟨?_, h2⟩, rfl, rfl⟩
    · intro t
      rw [h1]
      constructor
      · exact fun h => Or.inl h
      · rintro (h | rfl)
        · exact h
        · exact h2
    · have := congrArg List.length h1
      simpa using this
  | none =>
    have hnot := as_bins_update_none rec.bins n as_val.nil hu
    have hlt : rec.bins.length < capacity := by
      rcases hroom with h | h
      · exact absurd h hnot
      · exact h
    dsimp only
    rw [if_pos hlt]
    dsimp only
    refine ⟨rfl, ?_, ?_, Or.inr ⟨by simp, hnot⟩, rfl, rfl⟩
    · intro t
      simp
    · intro b hb
      simp only [List.mem_append, List.mem_singleton] at hb
      rcases hb with hb | rfl
      · exact Or.inr hb
      · exact Or.inl rfl

/-- In a record whose bins all hold nil, every bin that is there reads as nil. -/
theorem as_record_get_nil (rec : as_record) (s : String)
    (hnil : ∀ b ∈ rec.bins, b.value = as_val.nil) (hs : s ∈ rec.bins.map as_bin.name) :
    as_record_get (some rec) (some s) = some as_val.nil := by
  unfold as_record_get
  dsimp only
  cases hf : rec.bins.find? (fun b => b.name == s) with
  | none =>
    rw [List.find?_eq_none] at hf
    obtain ⟨b, hb, hbn⟩ := List.mem_map.mp hs
    exact absurd (by simpa using hbn) (hf b hb)
  | some b =>
    have hb := List.mem_of_find?_eq_some hf
    simp [hnil b hb]

/-- The loop leaves through `exit` with `AEROSPIKE_ERR` only. -/
theorem remove_bin_loop_error (E : Extern) (capacity : Nat) (l : List zval) (rec : as_record)
    (status : as_status) (h : remove_bin_loop E capacity l rec = .error status) :
    status = AEROSPIKE_ERR := by
  induction l generalizing rec with
  | nil => simp [remove_bin_loop] at h
  | cons z rest ih =>
    unfold remove_bin_loop at h
    split at h
    · split at h
      · cases h; rfl
      · exact ih _ h
    · cases h; rfl

/-- The loop runs to its end only over strings. -/
theorem remove_bin_loop_ok (E : Extern) (capacity : Nat) (l : List zval) (rec rec1 : as_record)
    (h : remove_bin_loop E capacity l rec = .ok rec1) :
    ∀ z ∈ l, Z_TYPE z = ztype.IS_STRING := by
  induction l generalizing rec with
  | nil => simp
  | cons z rest ih =>
    unfold remove_bin_loop at h
    split at h
    · rename_i hz
      split at h
      · cases h
      · intro x hx
        rcases List.mem_cons.mp hx with rfl | hx
        · exact hz
        · exact ih _ h x hx
    · cases h

/-- Over strings that fit a bin name, and with room for one bin for each of them, the loop
runs to its end; the record then holds exactly the bins named so far, all set to nil. -/
theorem remove_bin_loop_strings (E : Extern) (capacity : Nat) (l : List zval)
    (done : List String) (rec : as_record)
    (hnil : ∀ b ∈ rec.bins, b.value = as_val.nil)
    (hnames : ∀ t, t ∈ rec.bins.map as_bin.name ↔ t ∈ done)
    (hlen : rec.bins.length ≤ done.length)
    (hcap : done.length + l.length ≤ capacity)
    (hstr : ∀ z ∈ l, Z_TYPE z = ztype.IS_STRING)
    (hfit : ∀ z ∈ l, ∀ s, Z_STRVAL z = some s → s.utf8ByteSize < E.AS_BIN_NAME_MAX_SIZE) :
    ∃ rec1, remove_bin_loop E capacity l rec = .ok rec1 ∧
      (∀ b ∈ rec1.bins, b.value = as_val.nil) ∧
      (∀ t, t ∈ rec1.bins.map as_bin.name ↔ t ∈ done ∨ ∃ z ∈ l, Z_STRVAL z = some t) ∧
      rec1.gen = rec.gen ∧ rec1.ttl = rec.ttl := by
  induction l generalizing done rec with
  | nil => exact ⟨rec, rfl, hnil, by simpa using hnames, rfl, rfl⟩
  | cons z rest ih =>
    have hz := hstr z (List.mem_cons_self _ _)
    cases z with
    | string s =>
      simp only [List.length_cons] at hcap
      obtain ⟨s1, s2, s3, s4, s5, s6⟩ := as_record_set_nil_spec E capacity rec s
        (hfit _ (List.mem_cons_self _ _) s rfl) (Or.inr (by omega))
      obtain ⟨rec1, r1, r2, r3, r4, r5⟩ := ih (done ++ [s])
        (as_record_set_nil E capacity rec (some s)).2
        (fun b hb => (s3 b hb).elim id (hnil b))
        (fun t => by rw [s2 t, hnames t]; simp)
        (by
          rcases s4 with ⟨h, _⟩ | ⟨h, _⟩
          · rw [h]; simp only [List.length_append, List.length_cons, List.length_nil]; omega
          · rw [h]; simp only [List.length_append, List.length_cons, List.length_nil]; omega)
        (by simp only [List.length_append, List.length_cons, List.length_nil]; omega)
        (fun x hx => hstr x (List.mem_cons_of_mem _ hx))
        (fun x hx => hfit x (List.mem_cons_of_mem _ hx))
      refine ⟨rec1, ?_, r2, ?_, by rw [r4, s5], by rw [r5, s6]⟩
      · unfold remove_bin_loop
        simp only [Z_TYPE, Z_STRVAL, if_true, s1]
        exact r1
      · intro t
        rw [r3 t]
        simp only [List.mem_append, List.mem_cons, List.not_mem_nil, or_false, exists_eq_or_imp,
          Z_STRVAL, Option.some.injEq]
        constructor
        · rintro ((h | h) | h)
          · exact Or.inl h
          · exact Or.inr (Or.inl h.symm)
          · exact Or.inr (Or.inr h)
        · rintro (h | h | h)
          · exact Or.inl (Or.inl h)
          · exact Or.inl (Or.inr h.symm)
          · exact Or.inr h
    | null => simp [Z_TYPE] at hz
    | long _ => simp [Z_TYPE] at hz
    | bool _ => simp [Z_TYPE] at hz
    | array _ => simp [Z_TYPE] at hz
    | other _ => simp [Z_TYPE] at hz

/-- Past the argument checks and the policy resolution, the entry point is its loop
followed by the write. -/
theorem remove_bin_of_policy_ok (E : ExternWrite) (as_object_p : Option aerospike)
    (as_key_p : Option as_key) (bins : List zval) (error_p : Option as_error)
    (options_p : Option zval)
    (hobj : as_object_p.isSome = true) (herr : error_p.isSome = true)
    (hkey : as_key_p.isSome = true)
    (hpolicy : E.set_policy_write options_p = AEROSPIKE_OK) :
    aerospike_record_operations_remove_bin E as_object_p as_key_p (some bins) error_p options_p =
      match remove_bin_loop E.toExtern bins.length bins as_record_inita with
      | .error status => { status := status, calls := [], returned := [], error := error_p }
      | .ok rec =>
        { status := E.aerospike_key_put [] as_key_p none
            { rec with gen := E.get_generation_value options_p rec.gen },
          calls := [NetCall.put as_key_p none
            { rec with gen := E.get_generation_value options_p rec.gen }],
          returned := [], error := error_p } := by
  unfold aerospike_record_operations_remove_bin
  have h1 : ¬(as_object_p.isNone = true ∨ error_p.isNone = true ∨ as_key_p.isNone = true ∨
      (some bins).isNone = true) := by
    cases as_object_p <;> cases error_p <;> cases as_key_p <;> simp_all
  rw [if_neg h1, if_neg (by simpa using hpolicy)]
  rfl

/-- C11: when policy resolution is reached (no argument is `NULL`) and succeeds, and
`as_record_set_nil` succeeds (every string of the array fits a bin name),
`aerospike_record_operations_remove_bin` calls `aerospike_key_put` if and only if every
entry of the bin-name array is a string.  When some entry is not a string it returns a
status other than `AEROSPIKE_OK` and makes no store call; when all are strings its only
store call is one `aerospike_key_put` with the `NULL` policy, whose status it returns, of
a record in which every named bin is set to nil and which holds no other bin. -/
theorem C11_remove_bin (E : ExternWrite) (as_object_p : Option aerospike)
    (as_key_p : Option as_key) (bins : List zval) (error_p : Option as_error)
    (options_p : Option zval)
    (hobj : as_object_p.isSome = true) (herr : error_p.isSome = true)
    (hkey : as_key_p.isSome = true)
    (hpolicy : E.set_policy_write options_p = AEROSPIKE_OK) :
    ((∃ z ∈ bins, Z_TYPE z ≠ ztype.IS_STRING) →
      (aerospike_record_operations_remove_bin E as_object_p as_key_p (some bins) error_p
        options_p).status ≠ AEROSPIKE_OK ∧
      (aerospike_record_operations_remove_bin E as_object_p as_key_p (some bins) error_p
        options_p).calls = []) ∧
    ((∀ z ∈ bins, ∀ s, Z_STRVAL z = some s → s.utf8ByteSize < E.AS_BIN_NAME_MAX_SIZE) →
      ((∃ c ∈ (aerospike_record_operations_remove_bin E as_object_p as_key_p (some bins)
          error_p options_p).calls, c.is_put = true) ↔
        ∀ z ∈ bins, Z_TYPE z = ztype.IS_STRING) ∧
      ((∀ z ∈ bins, Z_TYPE z = ztype.IS_STRING) →
        ∃ rec : as_record,
          (aerospike_record_operations_remove_bin E as_object_p as_key_p (some bins) error_p
            options_p).calls = [NetCall.put as_key_p none rec] ∧
          (aerospike_record_operations_remove_bin E as_object_p as_key_p (some bins) error_p
            options_p).status = E.aerospike_key_put [] as_key_p none rec ∧
          (∀ z ∈ bins, ∀ s, Z_STRVAL z = some s →
            as_record_get (some rec) (some s) = some as_val.nil) ∧
          (∀ b ∈ rec.bins, b.value = as_val.nil ∧ ∃ z ∈ bins, Z_STRVAL z = some b.name))) := by
  rw [remove_bin_of_policy_ok E as_object_p as_key_p bins error_p options_p hobj herr hkey
    hpolicy]
  have hall : (∀ z ∈ bins, ∀ s, Z_STRVAL z = some s → s.utf8ByteSize < E.AS_BIN_NAME_MAX_SIZE) →
      (∀ z ∈ bins, Z_TYPE z = ztype.IS_STRING) →
      ∃ rec1, remove_bin_loop E.toExtern bins.length bins as_record_inita = .ok rec1 ∧
        (∀ b ∈ rec1.bins, b.value = as_val.nil) ∧
        (∀ t, t ∈ rec1.bins.map as_bin.name ↔ ∃ z ∈ bins, Z_STRVAL z = some t) := by
    intro hfit hstr
    obtain ⟨rec1, h1, h2, h3, _, _⟩ := remove_bin_loop_strings E.toExtern bins.length bins []
      as_record_inita (by simp [as_record_inita]) (by simp [as_record_inita])
      (by simp [as_record_inita]) (by simp) hstr hfit
    exact ⟨rec1, h1, h2, fun t => by simpa using h3 t⟩
  refine ⟨?_, ?_⟩
  · rintro ⟨z, hz, hzt⟩
    cases hl : remove_bin_loop E.toExtern bins.length bins as_record_inita with
    | error status =>
      have := remove_bin_loop_error E.toExtern bins.length bins as_record_inita status hl
      subst this
      exact ⟨by simp, rfl⟩
    | ok rec1 =>
      exact absurd (remove_bin_loop_ok E.toExtern bins.length bins as_record_inita rec1 hl z hz)
        hzt
  · intro hfit
    constructor
    · constructor
      · rintro ⟨c, hc, _⟩
        cases hl : remove_bin_loop E.toExtern bins.length bins as_record_inita with
        | error status =>
          rw [hl] at hc
          simp at hc
        | ok rec1 =>
          exact remove_bin_loop_ok E.toExtern bins.length bins as_record_inita rec1 hl
      · intro hstr
        obtain ⟨rec1, h1, _, _⟩ := hall hfit hstr
        rw [h1]
        exact ⟨_, List.mem_singleton.mpr rfl, rfl⟩
    · intro hstr
      obtain ⟨rec1, h1, h2, h3⟩ := hall hfit hstr
      rw [h1]
      refine ⟨{ rec1 with gen := E.get_generation_value options_p rec1.gen }, rfl, rfl, ?_, ?_⟩
      · intro z hz s hs
        exact as_record_get_nil _ s h2 ((h3 s).mpr ⟨z, hz, hs⟩)
      · intro b hb
        exact ⟨h2 b hb, (h3 b.name).mp (List.mem_map.mpr ⟨b, hb, rfl⟩)⟩

/-- C11, at the bin names `["x", "y", "x"]`: one write of a record whose bins are `x` and
`y`, both nil. -/
theorem C11_remove_bin_witness :
    (sampleObject.isSome = true ∧ sampleError.isSome = true ∧ sampleKey.isSome = true ∧
      storePut.set_policy_write none = AEROSPIKE_OK ∧
      (∀ z ∈ [zval.string "x", zval.string "y", zval.string "x"],
        Z_TYPE z = ztype.IS_STRING)) ∧
    ((∃ c ∈ (aerospike_record_operations_remove_bin storePut sampleObject sampleKey
        (some [zval.string "x", zval.string "y", zval.string "x"]) sampleError none).calls,
        c.is_put = true) ↔
      ∀ z ∈ [zval.string "x", zval.string "y", zval.string "x"], Z_TYPE z = ztype.IS_STRING) ∧
    (aerospike_record_operations_remove_bin storePut sampleObject sampleKey
        (some [zval.string "x", zval.string "y", zval.string "x"]) sampleError none).calls =
      [NetCall.put sampleKey none
        { bins := [{ name := "x", value := as_val.nil }, { name := "y", value := as_val.nil }],
          gen := 0, ttl := 0 }] :=
  ⟨⟨by decide, by decide, by decide, by decide, by decide⟩,
   ((C11_remove_bin storePut sampleObject sampleKey
      [zval.string "x", zval.string "y", zval.string "x"] sampleError none
      (by decide) (by decide) (by decide) (by decide)).2
      (by
        intro z hz s hs
        simp only [List.mem_cons, List.mem_singleton, List.not_mem_nil, or_false] at hz
        rcases hz with rfl | rfl | rfl <;> cases hs <;> decide)).1,
   by decide⟩

/-! ## C12 -/

/-- C12 at the failing inputs: `aerospike_record_operations_operate` returns
`AEROSPIKE_OK` on two abort paths that write `AEROSPIKE_ERR` into `error_p` without
assigning `status`.  (1) The batch `[array(0 => "b")]`, whose entry has an integer key, is
never submitted: no store call is made, yet the status is `AEROSPIKE_OK`.  (2) The batch
`[read a]` against a store that hands back a record whose second bin the conversion
callback refuses: `as_record_foreach` fails after the first bin has been added to the
caller's result, yet the status is `AEROSPIKE_OK`. -/
theorem C12_ok_status_on_abort :
    ((aerospike_record_operations_operate storeInt sampleObject sampleKey none sampleError []
        [.array [(.HASH_KEY_IS_LONG 0, .string "b")]]).status = AEROSPIKE_OK ∧
      (aerospike_record_operations_operate storeInt sampleObject sampleKey none sampleError []
        [.array [(.HASH_KEY_IS_LONG 0, .string "b")]]).calls = [] ∧
      (aerospike_record_operations_operate storeInt sampleObject sampleKey none sampleError []
        [.array [(.HASH_KEY_IS_LONG 0, .string "b")]]).error =
        some { code := AEROSPIKE_ERR,
               message := "Unable to set policy: Invalid Policy Constant Key" }) ∧
    ((aerospike_record_operations_operate storeRefusing sampleObject sampleKey none sampleError
        [] [entry_no_val 1 "a"]).status = AEROSPIKE_OK ∧
      (aerospike_record_operations_operate storeRefusing sampleObject sampleKey none sampleError
        [] [entry_no_val 1 "a"]).calls =
        [NetCall.operate sampleKey { fields := [] }
           { gen := 0, ttl := 0, capacity := 1, binops := [as_binop.read "a"] }] ∧
      (aerospike_record_operations_operate storeRefusing sampleObject sampleKey none sampleError
        [] [entry_no_val 1 "a"]).error =
        some { code := AEROSPIKE_ERR, message := "Unable to get bins of a record" } ∧
      (aerospike_record_operations_operate storeRefusing sampleObject sampleKey none sampleError
        [] [entry_no_val 1 "a"]).returned.map Prod.fst = ["a"]) := by
  refine ⟨⟨by decide, by decide, by decide⟩, ⟨by decide, by decide, by decide, by decide⟩⟩

/-! ## C1 -/

/-- One iteration on an entry that holds only `bin` and a string `val`, when the client
library numbers the write operator 0: the `op` left at 0 by the reset selects the write
branch. -/
theorem entry_without_op (E : Extern) (as_key_p : Option as_key) (f : Frame) (a s : String)
    (hzero : E.AS_OPERATOR_WRITE = 0) (hd : E.operators.Nodup)
    (hroom : f.ops.binops.length < f.ops.capacity)
    (hname : a.utf8ByteSize < E.AS_BIN_NAME_MAX_SIZE) :
    operate_entry E as_key_p f
        (.array [(.HASH_KEY_IS_STRING "bin", .string a), (.HASH_KEY_IS_STRING "val", .string s)]) =
      .ok { f with
            status := AEROSPIKE_OK,
            ops := { f.ops with
                     binops := f.ops.binops ++ [as_binop.write_str a (some s)] } } := by
  have hscan : scan_entry
      (Z_ARRVAL (.array [(.HASH_KEY_IS_STRING "bin", .string a),
        (.HASH_KEY_IS_STRING "val", .string s)])) EntryVars.reset =
      .scanned { str := some s, offset := 0, op := 0, bin_name_p := some a } := by
    simp [Z_ARRVAL, scan_entry, scan_key, Z_TYPE, Z_STRVAL, EntryVars.reset]
  have h0 : u_int64_of_int 0 = E.AS_OPERATOR_WRITE := by
    rw [hzero]
    decide
  rw [entry_of_scan E as_key_p f _ _ (by rfl) hscan]
  dsimp only
  rw [h0, (ops_branches E f.calls as_key_p (some a) (some s) _ 0 0 f.ops hd).2.2.2.2]
  dsimp only
  rw [if_neg (fun h => h rfl)]
  simp only [as_operations_add_write_str, as_operations_add_of_room E f.ops a _ hroom hname]

/-- C1 (what the code does instead): with the operator numbering of the client library,
in which `AS_OPERATOR_WRITE` is 0, an entry with no `op` key is not rejected.  The batch
`[array("bin" => a, "val" => s)]` has no key that is read as `op`, all its keys are
strings, and `aerospike_record_operations_operate` compiles it as a write and submits
`[write_str(a, s)]` with one `aerospike_key_operate`, whose status it returns. -/
theorem C1_missing_op_written (E : Extern) (as_object_p : Option aerospike)
    (as_key_p : Option as_key) (options_p : Option zval) (error_p : Option as_error)
    (returned_p : List (String × zval)) (a s : String)
    (hzero : E.AS_OPERATOR_WRITE = 0) (hd : E.operators.Nodup)
    (hinit : (aerospike_record_initialization E as_object_p as_key_p options_p error_p).1 =
      AEROSPIKE_OK)
    (hname : a.utf8ByteSize < E.AS_BIN_NAME_MAX_SIZE) :
    lacks_op (.array [(.HASH_KEY_IS_STRING "bin", .string a),
      (.HASH_KEY_IS_STRING "val", .string s)]) ∧
    string_keys (.array [(.HASH_KEY_IS_STRING "bin", .string a),
      (.HASH_KEY_IS_STRING "val", .string s)]) ∧
    (aerospike_record_operations_operate E as_object_p as_key_p options_p error_p returned_p
        [.array [(.HASH_KEY_IS_STRING "bin", .string a),
          (.HASH_KEY_IS_STRING "val", .string s)]]).calls =
      [NetCall.operate as_key_p
         (aerospike_record_initialization E as_object_p as_key_p options_p error_p).2
         { gen := E.get_generation_value options_p 0, ttl := 0, capacity := 1,
           binops := [as_binop.write_str a (some s)] }] ∧
    (aerospike_record_operations_operate E as_object_p as_key_p options_p error_p returned_p
        [.array [(.HASH_KEY_IS_STRING "bin", .string a),
          (.HASH_KEY_IS_STRING "val", .string s)]]).status =
      (E.aerospike_key_operate [] as_key_p
         (aerospike_record_initialization E as_object_p as_key_p options_p error_p).2
         { gen := E.get_generation_value options_p 0, ttl := 0, capacity := 1,
           binops := [as_binop.write_str a (some s)] }).1 := by
  have hloop : operate_loop E as_key_p
      [.array [(.HASH_KEY_IS_STRING "bin", .string a), (.HASH_KEY_IS_STRING "val", .string s)]]
      (operate_start E options_p error_p AEROSPIKE_OK 1) =
      .ok { status := AEROSPIKE_OK,
            ops := { gen := E.get_generation_value options_p 0, ttl := 0, capacity := 1,
                     binops := [as_binop.write_str a (some s)] },
            calls := [], error := error_p } := by
    rw [loop_cons, entry_without_op E as_key_p _ a s hzero hd
      (by simp [operate_start, as_operations_inita]) hname]
    rfl
  refine ⟨?_, ?_, ?_, ?_⟩
  · intro p hp
    simp only [Z_ARRVAL, List.mem_cons, List.mem_singleton, List.not_mem_nil, or_false] at hp
    rcases hp with rfl | rfl <;> simp [HashKey.reads_as]
  · intro p hp
    simp only [Z_ARRVAL, List.mem_cons, List.mem_singleton, List.not_mem_nil, or_false] at hp
    rcases hp with rfl | rfl <;> rfl
  · rw [operate_of_loop_ok E as_object_p as_key_p options_p error_p returned_p _ _ hinit hloop,
      operate_submit_calls]
    rfl
  · rw [operate_of_loop_ok E as_object_p as_key_p options_p error_p returned_p _ _ hinit hloop]
    unfold operate_submit
    dsimp only
    repeat' split
    all_goals rfl

/-- C1 at the failing input, with write numbered 0: the batch
`[array("bin" => "a", "val" => "x")]` is submitted as `[write_str("a", "x")]` and the call
returns `AEROSPIKE_OK`. -/
theorem C1_missing_op_written_witness :
    (storeZeroWrite.AS_OPERATOR_WRITE = 0 ∧ storeZeroWrite.operators.Nodup ∧
      (aerospike_record_initialization storeZeroWrite sampleObject sampleKey none
        sampleError).1 = AEROSPIKE_OK ∧
      "a".utf8ByteSize < storeZeroWrite.AS_BIN_NAME_MAX_SIZE) ∧
    (aerospike_record_operations_operate storeZeroWrite sampleObject sampleKey none sampleError
        [] [.array [(.HASH_KEY_IS_STRING "bin", .string "a"),
          (.HASH_KEY_IS_STRING "val", .string "x")]]).calls =
      [NetCall.operate sampleKey
         (aerospike_record_initialization storeZeroWrite sampleObject sampleKey none
           sampleError).2
         { gen := storeZeroWrite.get_generation_value none 0, ttl := 0, capacity := 1,
           binops := [as_binop.write_str "a" (some "x")] }] ∧
    (aerospike_record_operations_operate storeZeroWrite sampleObject sampleKey none sampleError
        [] [.array [(.HASH_KEY_IS_STRING "bin", .string "a"),
          (.HASH_KEY_IS_STRING "val", .string "x")]]).status = AEROSPIKE_OK :=
  ⟨⟨by decide, by decide, by decide, by decide⟩,
   (C1_missing_op_written storeZeroWrite sampleObject sampleKey none sampleError [] "a" "x"
     (by decide) (by decide) (by decide) (by decide)).2.2.1,
   by decide⟩

/-! ## C6 -/

theorem uint32_of_long_add (c : Int) : uint32_of_long (c + 2 ^ 32) = uint32_of_long c := by
  unfold uint32_of_long
  omega

/-- The inner loop cannot tell an integer from the same integer plus 2^32. -/
theorem scan_key_long_add (v : EntryVars) (key : String) (c : Int) :
    scan_key v key (.long (c + 2 ^ 32)) = scan_key v key (.long c) := by
  unfold scan_key
  simp only [Z_TYPE, Z_LVAL, Z_STRVAL, uint32_of_long_add]

theorem entry_op_add (E : Extern) (as_key_p : Option as_key) (f : Frame) (c : Int)
    (rest : HashTable) :
    operate_entry E as_key_p f (.array ((.HASH_KEY_IS_STRING "op", .long (c + 2 ^ 32)) :: rest)) =
      operate_entry E as_key_p f (.array ((.HASH_KEY_IS_STRING "op", .long c) :: rest)) := by
  unfold operate_entry
  simp only [Z_TYPE, Z_ARRVAL, scan_entry, scan_key_long_add]

/-- The outer loop over two lists that differ in one entry, when the iteration on the one
entry equals the iteration on the other. -/
theorem loop_congr (E : Extern) (as_key_p : Option as_key) (pre post : List zval)
    (e1 e2 : zval) (f : Frame)
    (h : ∀ g, operate_entry E as_key_p g e1 = operate_entry E as_key_p g e2) :
    operate_loop E as_key_p (pre ++ e1 :: post) f =
      operate_loop E as_key_p (pre ++ e2 :: post) f := by
  rw [loop_append, loop_append]
  cases operate_loop E as_key_p pre f with
  | error g => rfl
  | ok g =>
    dsimp only
    rw [loop_cons, loop_cons, h g]

/-- C6 (what the code does instead): the cast `(uint32_t)` at line 344 makes an operation
code `c + 2^32` indistinguishable from `c`: in any batch, an entry whose `op` holds
`c + 2^32` gives the very result of the same entry with `op` holding `c`.  So the value
2^32 + 1, which is none of the operator codes 0, 1, 2, 4, 5, 8, is taken for the read
code 1: the batch `[array("op" => 4294967297, "bin" => "a")]` is submitted as
`[read("a")]` and the call returns `AEROSPIKE_OK`. -/
theorem C6_narrowed_code_accepted (E : Extern) (as_object_p : Option aerospike)
    (as_key_p : Option as_key) (options_p : Option zval) (error_p : Option as_error)
    (returned_p : List (String × zval)) (pre post : List zval) (c : Int) (rest : HashTable) :
    aerospike_record_operations_operate E as_object_p as_key_p options_p error_p returned_p
        (pre ++ .array ((.HASH_KEY_IS_STRING "op", .long (c + 2 ^ 32)) :: rest) :: post) =
      aerospike_record_operations_operate E as_object_p as_key_p options_p error_p returned_p
        (pre ++ .array ((.HASH_KEY_IS_STRING "op", .long c) :: rest) :: post) ∧
    (4294967297 : Nat) ∉ storeZeroWrite.operators ∧
    (aerospike_record_operations_operate storeZeroWrite sampleObject sampleKey none sampleError
        [] [.array [(.HASH_KEY_IS_STRING "op", .long 4294967297),
                    (.HASH_KEY_IS_STRING "bin", .string "a")]]).calls =
      [NetCall.operate sampleKey { fields := [] }
         { gen := 0, ttl := 0, capacity := 1, binops := [as_binop.read "a"] }] ∧
    (aerospike_record_operations_operate storeZeroWrite sampleObject sampleKey none sampleError
        [] [.array [(.HASH_KEY_IS_STRING "op", .long 4294967297),
                    (.HASH_KEY_IS_STRING "bin", .string "a")]]).status = AEROSPIKE_OK := by
  refine ⟨?_, by decide, by decide, by decide⟩
  unfold aerospike_record_operations_operate
  have hlen : (pre ++ zval.array ((HashKey.HASH_KEY_IS_STRING "op",
        zval.long (c + 2 ^ 32)) :: rest) :: post).length =
      (pre ++ zval.array ((HashKey.HASH_KEY_IS_STRING "op", zval.long c) :: rest) ::
        post).length := by
    simp
  simp only [hlen, loop_congr E as_key_p pre post _ _ _
    (fun g => entry_op_add E as_key_p g c rest)]

/-! ## C7 -/

/-- C7 at the failing input: an entry that cannot be translated and yet does not make the
call fail.  The entry `array(0 => "b", "val" => true)` holds a `val` of unsupported type;
the iteration on it leaves through `exit` with `status` still `AEROSPIKE_OK`, because the
exit taken for its integer key (lines 335-341) writes `AEROSPIKE_ERR` into `error_p` only.
For the batch `[read a, array(0 => "b", "val" => true), read a]` the call makes no store
call, so nothing is submitted and the third entry is not processed, but the status it
returns is `AEROSPIKE_OK`, not a failure. -/
theorem C7_untranslated_entry_returns_ok :
    (HashKey.HASH_KEY_IS_STRING "val", zval.bool true) ∈
      Z_ARRVAL (.array [(.HASH_KEY_IS_LONG 0, .string "b"),
        (.HASH_KEY_IS_STRING "val", .bool true)]) ∧
    Z_TYPE (zval.bool true) ≠ ztype.IS_STRING ∧ Z_TYPE (zval.bool true) ≠ ztype.IS_LONG ∧
    operate_entry storeZeroWrite sampleKey
        (operate_start storeZeroWrite none sampleError AEROSPIKE_OK 1)
        (.array [(.HASH_KEY_IS_LONG 0, .string "b"), (.HASH_KEY_IS_STRING "val", .bool true)]) =
      .error { operate_start storeZeroWrite none sampleError AEROSPIKE_OK 1 with
               error := some { code := AEROSPIKE_ERR,
                               message := "Unable to set policy: Invalid Policy Constant Key" } } ∧
    (aerospike_record_operations_operate storeZeroWrite sampleObject sampleKey none sampleError
        [] [entry_no_val 1 "a",
            .array [(.HASH_KEY_IS_LONG 0, .string "b"), (.HASH_KEY_IS_STRING "val", .bool true)],
            entry_no_val 1 "a"]).status = AEROSPIKE_OK ∧
    (aerospike_record_operations_operate storeZeroWrite sampleObject sampleKey none sampleError
        [] [entry_no_val 1 "a",
            .array [(.HASH_KEY_IS_LONG 0, .string "b"), (.HASH_KEY_IS_STRING "val", .bool true)],
            entry_no_val 1 "a"]).calls = [] := by
  refine ⟨by simp [Z_ARRVAL], by decide, by decide, rfl, by decide, by decide⟩

end AerospikeOps
